import Mathlib

/-!
Verification of the interactive change-review and application workflow of the
codegen-cli repository (the `generate` command of `src/index.ts`, together with
`src/file-operations/diffGenerator.ts`, `src/file-operations/fileApplier.ts` and
`src/git-operations/gitManager.ts`).

The TypeScript code is shallowly embedded: the `generate` command action is a
pure function from an environment of collaborator responses (Git collaborator,
backend scan/LLM/mutation endpoints, interactive prompt answers) to a trace of
observable calls plus a terminal outcome.  External collaborators (the remote
backend, simple-git, inquirer) are oracles in the environment; their internals
are out of scope, matching the specification.  The external jsdiff library used
by `generateUnifiedDiff` is modelled at the granularity the CLI observes.
-/

/-- One scanned file, from `src/types.ts` (`ScannedFile`). -/
structure ScannedFile where
  filePath : String
  relativePath : String
  content : String
deriving DecidableEq, Repr

/-- One proposed change, from `src/types.ts` (`ProposedFileChange`).
The TypeScript union type of `action` is erased at runtime; the JSON coming
back from the backend may carry any string, which is why `applyFileChange`
has a `default` branch.  `action` is therefore a `String` here. -/
structure ProposedFileChange where
  filePath : String
  action : String
  newContent : Option String
  reason : Option String
deriving DecidableEq, Repr

/-- The structured LLM response, from `src/types.ts` (`LLMOutput`). -/
structure LLMOutput where
  changes : List ProposedFileChange
  summary : String
  thoughtProcess : Option String
deriving DecidableEq, Repr

/-- The mutable commander options object of the `generate` command that the
action reads and writes: `options.yes`, `options.noGit`, `options.branch`. -/
structure GenerateOptions where
  yes : Bool
  noGit : Bool
  branch : Option String
deriving DecidableEq, Repr

/-- JavaScript truthiness of a `string | null | undefined` value:
`null`, `undefined` and the empty string are falsy. -/
def jsTruthy : Option String → Bool
  | none => false
  | some s => !(s == "")

/-- One hunk returned by the jsdiff `diffLines` call in
`src/file-operations/diffGenerator.ts`; `added`/`removed` are `undefined`
(here `false`) on a common hunk. -/
structure DiffPart where
  value : String
  added : Bool
  removed : Bool
deriving DecidableEq, Repr

/-- Model of the external jsdiff `Diff.diffLines` at the granularity the CLI
observes.  jsdiff returns no hunks for two empty inputs (its tokenizer drops
empty tokens), a single unmarked hunk for identical non-empty inputs, and for
differing inputs a hunk sequence containing the removed old text and the added
new text; the fine-grained splitting of partially overlapping contents is
irrelevant to the CLI, which only tests the rendered diff for emptiness, and
is coarsened here to one removed hunk plus one added hunk. -/
def diffLines (oldContent newContent : String) : List DiffPart :=
  if oldContent = newContent then
    if oldContent = "" then [] else [⟨oldContent, false, false⟩]
  else
    (if oldContent = "" then [] else [⟨oldContent, false, true⟩]) ++
      (if newContent = "" then [] else [⟨newContent, true, false⟩])

/-- The per-hunk line marker chosen in `generateUnifiedDiff`. -/
def partMarker (p : DiffPart) : String :=
  if p.added then "+ " else if p.removed then "- " else "  "

/-- One hunk rendered as in `generateUnifiedDiff`: every line of the hunk
value is given the marker.  The chalk color wrappers are display-only and
elided. -/
def renderPart (p : DiffPart) : String :=
  String.intercalate "\n" ((p.value.splitOn "\n").map (fun line => partMarker p ++ line))

/-- `generateUnifiedDiff` from `src/file-operations/diffGenerator.ts`: returns
the empty string when `diffLines` produced a single hunk that is neither added
nor removed, otherwise the concatenation of the rendered hunks. -/
def generateUnifiedDiff (originalContent newContent : String) : String :=
  let diff := diffLines originalContent newContent
  match diff with
  | [⟨_, false, false⟩] => ""
  | _ => String.join (diff.map renderPart)

/-- A character kept by the branch-name regex `[^a-z0-9]+` of
`src/index.ts`: ASCII lower-case letters and digits. -/
def isSlugChar (c : Char) : Bool :=
  c.isLower || c.isDigit

/-- Model of `String.prototype.replace(/[^a-z0-9]+/g, -)` as a left-to-right
scan: a character outside `[a-z0-9]` emits one dash unless the previous
character already did (so every maximal run collapses to a single dash). -/
def collapseAux (prevSep : Bool) : List Char → List Char
  | [] => []
  | c :: rest =>
    if isSlugChar c then c :: collapseAux false rest
    else if prevSep then collapseAux true rest
    else '-' :: collapseAux true rest

/-- The regex replacement applied to a whole string. -/
def replaceNonSlugRuns (s : String) : String :=
  String.mk (collapseAux false s.data)

/-- Model of `String.prototype.toLowerCase` (ASCII case mapping). -/
def toLowerCaseStr (s : String) : String :=
  String.mk (s.data.map Char.toLower)

/-- Model of `String.prototype.substring(0, n)`: the first `n` characters. -/
def jsSubstring (s : String) (n : Nat) : String :=
  String.mk (s.data.take n)

/-- The default working-branch name of `src/index.ts` lines 304-306 and
333-336: `feature/` followed by the lower-cased prompt with non-alphanumeric
runs replaced by dashes, truncated to 50 characters. -/
def defaultBranchSuggestion (prompt : String) : String :=
  jsSubstring ("feature/" ++ replaceNonSlugRuns (toLowerCaseStr prompt)) 50

/-- Character-wise separator substitution used by the specification-side
branch-name definition: keep `[a-z0-9]`, map everything else to a dash. -/
def sepMap (c : Char) : Char :=
  if isSlugChar c then c else '-'

/-- Collapse consecutive dashes to a single dash (specification-side). -/
def squeezeAux (prevDash : Bool) : List Char → List Char
  | [] => []
  | c :: rest =>
    if c == '-' then
      if prevDash then squeezeAux true rest
      else '-' :: squeezeAux true rest
    else c :: squeezeAux false rest

/-- The default branch name as the specification words it: the prompt is
lower-cased, every character outside `[a-z0-9]` becomes a separator,
consecutive separators collapse to one, the fixed prefix is attached and the
result is truncated to 50 characters.  Stated independently of
`defaultBranchSuggestion` to serve as the refinement target. -/
def specDefaultBranchName (prompt : String) : String :=
  jsSubstring
    ("feature/" ++ String.mk (squeezeAux false ((toLowerCaseStr prompt).data.map sepMap))) 50

/-- A mutation request issued to the backend by `applyFileChange`. -/
inductive BackendCall where
  | createFile (filePath : String) (isDirectory : Bool) (content : String)
  | writeFile (filePath : String) (content : String)
  | deleteFile (filePath : String)
deriving DecidableEq, Repr

/-- Coarse model of node `path.resolve(projectRoot, filePath)`: an absolute
path is kept, a relative one is joined onto the root.  No claim depends on
finer resolution details. -/
def resolvePath (projectRoot filePath : String) : String :=
  match filePath.data with
  | '/' :: _ => filePath
  | _ => projectRoot ++ "/" ++ filePath

/-- `applyFileChange` from `src/file-operations/fileApplier.ts`: dispatches on
`change.action` and returns the backend mutation call it issues; the
`default` branch only logs a warning and issues no call, which is modelled as
`none`.  Missing `newContent` is coerced to the empty string by the
`change.newContent || ''` expressions. -/
def applyFileChange (projectRoot : String) (change : ProposedFileChange) : Option BackendCall :=
  let absoluteFilePath := resolvePath projectRoot change.filePath
  if change.action = "add" then
    some (.createFile absoluteFilePath false (change.newContent.getD ""))
  else if change.action = "modify" then
    some (.writeFile absoluteFilePath (change.newContent.getD ""))
  else if change.action = "delete" then
    some (.deleteFile absoluteFilePath)
  else
    none

/-- The four answers of the per-change inquirer prompt in `src/index.ts`
(`yes`, `no`, `all`, `abort`). -/
inductive Confirm where
  | yes
  | no
  | all
  | abort
deriving DecidableEq, Repr

/-- Observable calls made by the `generate` action, in program order. -/
inductive Event where
  | isGitRepoCall
  | currentBranchCall
  | promptProceedGit
  | promptBranchName
  | createBranchCall (branchName : String)
  | scanCall (scanPaths : List String) (projectRoot : String)
  | llmCall
  | promptDecision (index : Nat) (filePath : String) (answer : Confirm)
  | applyCall (index : Nat) (filePath : String) (callMade : Option BackendCall)
  | applyFailureReport (filePath : String) (message : String)
  | checkoutCall (branchName : String)
  | stageCall (filePaths : List String)
deriving DecidableEq, Repr

/-- True exactly on per-change decision prompts. -/
def isDecisionPrompt : Event → Bool
  | .promptDecision _ _ _ => true
  | _ => false

/-- True exactly on `applyFileChange` invocations. -/
def isApplyCallEvt : Event → Bool
  | .applyCall _ _ _ => true
  | _ => false

/-- Terminal outcome of one `generate` invocation: the distinct `return`
paths of the action, plus `failed` for the catch-all handler that logs the
error and exits with a non-zero code. -/
inductive Outcome where
  | completed
  | noChangesProposed
  | aborted
  | noneConfirmed
  | failed (message : String)
deriving DecidableEq, Repr

/-- Responses of all external collaborators and of the interactive user for
one `generate` invocation.  `decisions` is indexed by prompt count,
`applyResults` by `applyFileChange` invocation count (the result of the
backend mutation call that invocation issues, if any). -/
structure GenerateEnv where
  isGitRepo : Bool
  currentBranch : Option String
  proceedGit : Bool
  branchNameInput : String
  createBranchResult : Except String Unit
  scanResult : Except String (List ScannedFile)
  llmResult : Except String LLMOutput
  decisions : Nat → Confirm
  applyResults : Nat → Except String Unit
  checkoutResult : Except String Unit
  stageResult : Except String Unit

/-- The loop state of the review loop of `src/index.ts` lines 391-466:
the enqueued confirmed changes (instrumented with their batch index), the
`filesModifiedOrAdded` list, the mutable `options.yes` flag (written by the
`all` answer), and how many prompts have been answered so far. -/
structure ReviewState where
  changesToApply : List (Nat × ProposedFileChange)
  filesModifiedOrAdded : List String
  optionsYes : Bool
  promptCount : Nat
deriving Repr

/-- Result of the review loop: it either runs to completion or is left by the
`abort` answer. -/
inductive ReviewResult where
  | finished (st : ReviewState)
  | aborted
deriving Repr

/-- `originalFileContents` of `src/index.ts` lines 355-359: a map from file
path to scanned content, later insertions shadowing earlier ones (association
list built by prepending, so `lookup` finds the last `set`). -/
def originalFileContentsOf (scannedFiles : List ScannedFile) : List (String × String) :=
  scannedFiles.foldl (fun m file => (file.filePath, file.content) :: m) []

/-- The review loop of `src/index.ts` lines 394-466, one iteration per
proposed change.  A `modify` change whose rendered diff is empty is skipped
with `continue` before any confirmation logic.  Note that the branch deciding
whether to prompt tests the constant `autoConfirm` captured before the loop
(line 429), not the mutable `options.yes` that the `all` answer writes
(line 454); the embedding preserves this faithfully. -/
def reviewLoop (env : GenerateEnv) (autoConfirm : Bool)
    (originalFileContents : List (String × String)) :
    List ProposedFileChange → Nat → ReviewState → List Event × ReviewResult
  | [], _, st => ([], .finished st)
  | change :: rest, idx, st =>
    if change.action == "modify" &&
        generateUnifiedDiff ((originalFileContents.lookup change.filePath).getD "")
          (change.newContent.getD "") == "" then
      reviewLoop env autoConfirm originalFileContents rest (idx + 1) st
    else if autoConfirm then
      reviewLoop env autoConfirm originalFileContents rest (idx + 1)
        { st with
          changesToApply := st.changesToApply ++ [(idx, change)]
          filesModifiedOrAdded := st.filesModifiedOrAdded ++ [change.filePath] }
    else
      match env.decisions st.promptCount with
      | .yes =>
        let next := reviewLoop env autoConfirm originalFileContents rest (idx + 1)
          { st with
            changesToApply := st.changesToApply ++ [(idx, change)]
            filesModifiedOrAdded := st.filesModifiedOrAdded ++ [change.filePath]
            promptCount := st.promptCount + 1 }
        (Event.promptDecision idx change.filePath .yes :: next.1, next.2)
      | .all =>
        let next := reviewLoop env autoConfirm originalFileContents rest (idx + 1)
          { st with
            changesToApply := st.changesToApply ++ [(idx, change)]
            filesModifiedOrAdded := st.filesModifiedOrAdded ++ [change.filePath]
            optionsYes := true
            promptCount := st.promptCount + 1 }
        (Event.promptDecision idx change.filePath .all :: next.1, next.2)
      | .abort =>
        ([Event.promptDecision idx change.filePath .abort], .aborted)
      | .no =>
        let next := reviewLoop env autoConfirm originalFileContents rest (idx + 1)
          { st with promptCount := st.promptCount + 1 }
        (Event.promptDecision idx change.filePath .no :: next.1, next.2)

/-- The review loop as called by the `generate` action: starts at index 0
with empty accumulators and `options.yes` equal to the auto-confirm flag. -/
def reviewPhase (env : GenerateEnv) (autoConfirm : Bool)
    (originalFileContents : List (String × String))
    (changes : List ProposedFileChange) : List Event × ReviewResult :=
  reviewLoop env autoConfirm originalFileContents changes 0 ⟨[], [], autoConfirm, 0⟩

/-- The apply loop of `src/index.ts` lines 477-487: one `applyFileChange`
invocation per enqueued change, a thrown backend error being caught, reported
with the affected path and message, and not stopping the loop. -/
def applyLoop (env : GenerateEnv) (projectRoot : String) :
    List (Nat × ProposedFileChange) → Nat → List Event
  | [], _ => []
  | (idx, change) :: rest, applyCount =>
    Event.applyCall idx change.filePath (applyFileChange projectRoot change) ::
      ((match applyFileChange projectRoot change, env.applyResults applyCount with
        | some _, .error message => [Event.applyFailureReport change.filePath message]
        | _, _ => []) ++
        applyLoop env projectRoot rest (applyCount + 1))

/-- Result of the Git pre-check of `src/index.ts` lines 295-348. -/
structure GitPreOut where
  isGitRepo : Bool
  originalBranch : Option String
  opts : GenerateOptions
deriving Repr

/-- The Git pre-check of `src/index.ts` lines 295-348: repository detection,
current-branch capture, the optional interactive confirmation and branch-name
prompt, and branch creation.  A thrown `createBranch` error propagates to the
catch-all handler, modelled as `Except.error`. -/
def gitPreflight (env : GenerateEnv) (prompt : String) (autoConfirm skipGit : Bool)
    (customBranchName : Option String) (opts0 : GenerateOptions) :
    List Event × Except String GitPreOut :=
  if skipGit then
    ([], .ok ⟨false, none, opts0⟩)
  else if env.isGitRepo then
    if autoConfirm then
      let opts1 :=
        if !opts0.noGit && !(jsTruthy customBranchName) then
          { opts0 with branch := some (defaultBranchSuggestion prompt) }
        else opts0
      if !opts1.noGit && jsTruthy opts1.branch then
        match env.createBranchResult with
        | .ok _ =>
          ([Event.isGitRepoCall, Event.currentBranchCall,
            Event.createBranchCall (opts1.branch.getD "")],
           .ok ⟨true, env.currentBranch, opts1⟩)
        | .error e =>
          ([Event.isGitRepoCall, Event.currentBranchCall,
            Event.createBranchCall (opts1.branch.getD "")],
           .error e)
      else
        ([Event.isGitRepoCall, Event.currentBranchCall], .ok ⟨true, env.currentBranch, opts1⟩)
    else
      if !env.proceedGit then
        ([Event.isGitRepoCall, Event.currentBranchCall, Event.promptProceedGit],
         .ok ⟨true, env.currentBranch, { opts0 with noGit := true }⟩)
      else if !(jsTruthy customBranchName) then
        let opts1 := { opts0 with branch := some env.branchNameInput }
        match env.createBranchResult with
        | .ok _ =>
          ([Event.isGitRepoCall, Event.currentBranchCall, Event.promptProceedGit,
            Event.promptBranchName, Event.createBranchCall (opts1.branch.getD "")],
           .ok ⟨true, env.currentBranch, opts1⟩)
        | .error e =>
          ([Event.isGitRepoCall, Event.currentBranchCall, Event.promptProceedGit,
            Event.promptBranchName, Event.createBranchCall (opts1.branch.getD "")],
           .error e)
      else
        match env.createBranchResult with
        | .ok _ =>
          ([Event.isGitRepoCall, Event.currentBranchCall, Event.promptProceedGit,
            Event.createBranchCall (opts0.branch.getD "")],
           .ok ⟨true, env.currentBranch, opts0⟩)
        | .error e =>
          ([Event.isGitRepoCall, Event.currentBranchCall, Event.promptProceedGit,
            Event.createBranchCall (opts0.branch.getD "")],
           .error e)
  else
    ([Event.isGitRepoCall], .ok ⟨false, none, { opts0 with noGit := true }⟩)

/-- The revert guard of `src/index.ts` lines 457 and 470:
`isGitRepo && !options.noGit && options.branch && originalBranch`. -/
def revertGuard (g : GitPreOut) : Bool :=
  g.isGitRepo && !g.opts.noGit && jsTruthy g.opts.branch && jsTruthy g.originalBranch

/-- The shared abort / nothing-confirmed exit of `src/index.ts` lines 455-461
and 468-475: if the revert guard holds, check out the original branch (a
thrown checkout error propagating to the catch-all handler), then return. -/
def abortOutcome (env : GenerateEnv) (g : GitPreOut) (tr : List Event)
    (final : Outcome) : List Event × Outcome :=
  if revertGuard g then
    match env.checkoutResult with
    | .ok _ => (tr ++ [Event.checkoutCall (g.originalBranch.getD "")], final)
    | .error e => (tr ++ [Event.checkoutCall (g.originalBranch.getD "")], .failed e)
  else (tr, final)

/-- The apply phase and post-flight staging of `src/index.ts` lines 477-522:
run the apply loop over the enqueued changes, then, when Git is active, stage
`filesModifiedOrAdded` (a thrown staging error propagating to the catch-all
handler). -/
def applyAndStage (env : GenerateEnv) (projectRoot : String) (g : GitPreOut)
    (tr : List Event) (st : ReviewState) : List Event × Outcome :=
  let trA := tr ++ applyLoop env projectRoot st.changesToApply 0
  if g.isGitRepo && !g.opts.noGit then
    match env.stageResult with
    | .ok _ => (trA ++ [Event.stageCall st.filesModifiedOrAdded], .completed)
    | .error e => (trA ++ [Event.stageCall st.filesModifiedOrAdded], .failed e)
  else (trA, .completed)

/-- The `generate` command action of `src/index.ts` lines 259-527 as one pure
function: Git pre-check, backend scan, original-content capture, LLM call,
review loop, abort handling, apply loop, post-flight staging.  Any error
thrown by a collaborator reaches the surrounding catch and terminates the
invocation as `failed`. -/
def runGenerate (env : GenerateEnv) (prompt projectRoot : String)
    (allScanPaths : List String) (opts0 : GenerateOptions) : List Event × Outcome :=
  let autoConfirm := opts0.yes
  let skipGit := opts0.noGit
  let customBranchName := opts0.branch
  match gitPreflight env prompt autoConfirm skipGit customBranchName opts0 with
  | (tr0, .error e) => (tr0, .failed e)
  | (tr0, .ok g) =>
    let tr1 := tr0 ++ [Event.scanCall allScanPaths projectRoot]
    match env.scanResult with
    | .error e => (tr1, .failed e)
    | .ok scannedFiles =>
      let originalFileContents := originalFileContentsOf scannedFiles
      let tr2 := tr1 ++ [Event.llmCall]
      match env.llmResult with
      | .error e => (tr2, .failed e)
      | .ok llmOutput =>
        if llmOutput.changes.isEmpty then (tr2, .noChangesProposed)
        else
          match reviewPhase env autoConfirm originalFileContents llmOutput.changes with
          | (trR, .aborted) => abortOutcome env g (tr2 ++ trR) .aborted
          | (trR, .finished st) =>
            if st.changesToApply.isEmpty then
              abortOutcome env g (tr2 ++ trR) .noneConfirmed
            else
              applyAndStage env projectRoot g (tr2 ++ trR) st

/-- The ordered list of enqueued (confirmed) changes of one invocation,
recomputed from the review phase alone; empty when the workflow never reaches
a completed review. -/
def runConfirmedChanges (env : GenerateEnv) (autoConfirm : Bool) :
    List (Nat × ProposedFileChange) :=
  match env.scanResult with
  | .error _ => []
  | .ok scannedFiles =>
    match env.llmResult with
    | .error _ => []
    | .ok llmOutput =>
      match (reviewPhase env autoConfirm (originalFileContentsOf scannedFiles)
          llmOutput.changes).2 with
      | .finished st => st.changesToApply
      | .aborted => []

/-- The `filesModifiedOrAdded` list of one invocation, recomputed from the
review phase alone. -/
def runConfirmedPaths (env : GenerateEnv) (autoConfirm : Bool) : List String :=
  match env.scanResult with
  | .error _ => []
  | .ok scannedFiles =>
    match env.llmResult with
    | .error _ => []
    | .ok llmOutput =>
      match (reviewPhase env autoConfirm (originalFileContentsOf scannedFiles)
          llmOutput.changes).2 with
      | .finished st => st.filesModifiedOrAdded
      | .aborted => []

example : generateUnifiedDiff "a" "a" = "" := by decide
example : generateUnifiedDiff "" "" = "" := by decide
example : diffLines "" "x" = [⟨"x", true, false⟩] := by decide
example : defaultBranchSuggestion "Add tests" = "feature/add-tests" := by decide

/-- The rendered diff of identical contents is empty: for identical non-empty
contents jsdiff returns a single unmarked hunk, for two empty contents it
returns no hunks and the rendering loop produces the empty string. -/
theorem generateUnifiedDiff_self (s : String) : generateUnifiedDiff s s = "" := by
  by_cases h : s = ""
  · subst h; rfl
  · simp [generateUnifiedDiff, diffLines, h]

/-- Diffing any non-empty content against an empty original yields exactly one
hunk, marked added, carrying the whole new content. -/
theorem diffLines_empty_original (c : String) (h : c ≠ "") :
    diffLines "" c = [⟨c, true, false⟩] := by
  simp [diffLines, h, Ne.symm h]

/-- Every event emitted by the Git pre-check is a Git call or a Git prompt. -/
theorem gitPreflight_events (env : GenerateEnv) (prompt : String)
    (autoConfirm skipGit : Bool) (customBranchName : Option String)
    (opts0 : GenerateOptions) (e : Event)
    (h : e ∈ (gitPreflight env prompt autoConfirm skipGit customBranchName opts0).1) :
    e = .isGitRepoCall ∨ e = .currentBranchCall ∨ e = .promptProceedGit ∨
      e = .promptBranchName ∨ ∃ b, e = .createBranchCall b := by
  unfold gitPreflight at h
  repeat' split at h
  all_goals simp_all [jsTruthy]
  all_goals (repeat' split at h)
  all_goals (try simp_all)
  all_goals aesop

/-- The Git pre-check never emits a per-change decision prompt. -/
theorem gitPreflight_no_decision_prompt (env : GenerateEnv) (prompt : String)
    (autoConfirm skipGit : Bool) (customBranchName : Option String)
    (opts0 : GenerateOptions) (i : Nat) (p : String) (a : Confirm) :
    Event.promptDecision i p a ∉
      (gitPreflight env prompt autoConfirm skipGit customBranchName opts0).1 := by
  intro h
  rcases gitPreflight_events env prompt autoConfirm skipGit customBranchName opts0 _ h with
    h1 | h1 | h1 | h1 | ⟨b, h1⟩ <;> simp_all

/-- The Git pre-check never invokes `applyFileChange`. -/
theorem gitPreflight_no_applyCall (env : GenerateEnv) (prompt : String)
    (autoConfirm skipGit : Bool) (customBranchName : Option String)
    (opts0 : GenerateOptions) (i : Nat) (p : String) (c : Option BackendCall) :
    Event.applyCall i p c ∉
      (gitPreflight env prompt autoConfirm skipGit customBranchName opts0).1 := by
  intro h
  rcases gitPreflight_events env prompt autoConfirm skipGit customBranchName opts0 _ h with
    h1 | h1 | h1 | h1 | ⟨b, h1⟩ <;> simp_all

/-- The Git pre-check never stages files. -/
theorem gitPreflight_no_stageCall (env : GenerateEnv) (prompt : String)
    (autoConfirm skipGit : Bool) (customBranchName : Option String)
    (opts0 : GenerateOptions) (fs : List String) :
    Event.stageCall fs ∉
      (gitPreflight env prompt autoConfirm skipGit customBranchName opts0).1 := by
  intro h
  rcases gitPreflight_events env prompt autoConfirm skipGit customBranchName opts0 _ h with
    h1 | h1 | h1 | h1 | ⟨b, h1⟩ <;> simp_all

/-- The Git pre-check never checks a branch out through the revert path. -/
theorem gitPreflight_no_checkoutCall (env : GenerateEnv) (prompt : String)
    (autoConfirm skipGit : Bool) (customBranchName : Option String)
    (opts0 : GenerateOptions) (b : String) :
    Event.checkoutCall b ∉
      (gitPreflight env prompt autoConfirm skipGit customBranchName opts0).1 := by
  intro h
  rcases gitPreflight_events env prompt autoConfirm skipGit customBranchName opts0 _ h with
    h1 | h1 | h1 | h1 | ⟨b1, h1⟩ <;> simp_all

/-- The Git pre-check never calls the LLM. -/
theorem gitPreflight_no_llmCall (env : GenerateEnv) (prompt : String)
    (autoConfirm skipGit : Bool) (customBranchName : Option String)
    (opts0 : GenerateOptions) :
    Event.llmCall ∉
      (gitPreflight env prompt autoConfirm skipGit customBranchName opts0).1 := by
  intro h
  rcases gitPreflight_events env prompt autoConfirm skipGit customBranchName opts0 _ h with
    h1 | h1 | h1 | h1 | ⟨b, h1⟩ <;> simp_all

/-- The Git pre-check reaches the catch-all handler only when `createBranch`
threw: a pre-check error is exactly the branch-creation error. -/
theorem gitPreflight_error (env : GenerateEnv) (prompt : String)
    (autoConfirm skipGit : Bool) (customBranchName : Option String)
    (opts0 : GenerateOptions) (e : String)
    (h : (gitPreflight env prompt autoConfirm skipGit customBranchName opts0).2 =
      .error e) :
    env.createBranchResult = .error e := by
  unfold gitPreflight at h
  repeat' split at h
  all_goals simp_all [jsTruthy]
  all_goals (repeat' split at h)
  all_goals simp_all

/-- Every event emitted by the review loop is a per-change decision prompt. -/
theorem reviewLoop_events (env : GenerateEnv) (autoConfirm : Bool)
    (ofc : List (String × String)) (changes : List ProposedFileChange)
    (idx : Nat) (st : ReviewState) :
    ∀ e ∈ (reviewLoop env autoConfirm ofc changes idx st).1,
      ∃ i p a, e = Event.promptDecision i p a := by
  induction changes, idx, st using reviewLoop.induct env autoConfirm ofc with
  | case1 idx st => simp [reviewLoop]
  | case2 change rest idx st hskip ih =>
    intro e he
    unfold reviewLoop at he
    rw [if_pos hskip] at he
    exact ih e he
  | case3 change rest idx st hskip hauto ih =>
    intro e he
    unfold reviewLoop at he
    rw [if_neg hskip, if_pos hauto] at he
    exact ih e he
  | case4 change rest idx st hskip hauto hdec ih =>
    intro e he
    unfold reviewLoop at he
    rw [if_neg hskip, if_neg hauto, hdec] at he
    simp only [List.mem_cons] at he
    rcases he with he | he
    · exact ⟨_, _, _, he⟩
    · exact ih e he
  | case5 change rest idx st hskip hauto hdec ih =>
    intro e he
    unfold reviewLoop at he
    rw [if_neg hskip, if_neg hauto, hdec] at he
    simp only [List.mem_cons] at he
    rcases he with he | he
    · exact ⟨_, _, _, he⟩
    · exact ih e he
  | case6 change rest idx st hskip hauto hdec =>
    intro e he
    unfold reviewLoop at he
    rw [if_neg hskip, if_neg hauto, hdec] at he
    simp only [List.mem_singleton] at he
    exact ⟨_, _, _, he⟩
  | case7 change rest idx st hskip hauto hdec ih =>
    intro e he
    unfold reviewLoop at he
    rw [if_neg hskip, if_neg hauto, hdec] at he
    simp only [List.mem_cons] at he
    rcases he with he | he
    · exact ⟨_, _, _, he⟩
    · exact ih e he

/-- When the review loop runs to completion, no prompt was answered `abort`. -/
theorem reviewLoop_finished_no_abort (env : GenerateEnv) (autoConfirm : Bool)
    (ofc : List (String × String)) (changes : List ProposedFileChange)
    (idx : Nat) (st : ReviewState) :
    ∀ st', (reviewLoop env autoConfirm ofc changes idx st).2 = .finished st' →
      ∀ i p, Event.promptDecision i p .abort ∉
        (reviewLoop env autoConfirm ofc changes idx st).1 := by
  induction changes, idx, st using reviewLoop.induct env autoConfirm ofc with
  | case1 idx st => intro st' hfin i p h; simp [reviewLoop] at h
  | case2 change rest idx st hskip ih =>
    intro st' hfin i p h
    unfold reviewLoop at hfin h
    rw [if_pos hskip] at hfin h
    exact ih st' hfin i p h
  | case3 change rest idx st hskip hauto ih =>
    intro st' hfin i p h
    unfold reviewLoop at hfin h
    rw [if_neg hskip, if_pos hauto] at hfin h
    exact ih st' hfin i p h
  | case4 change rest idx st hskip hauto hdec ih =>
    intro st' hfin i p h
    unfold reviewLoop at hfin h
    rw [if_neg hskip, if_neg hauto, hdec] at hfin h
    simp only [List.mem_cons] at h
    rcases h with h | h
    · simp at h
    · exact ih st' hfin i p h
  | case5 change rest idx st hskip hauto hdec ih =>
    intro st' hfin i p h
    unfold reviewLoop at hfin h
    rw [if_neg hskip, if_neg hauto, hdec] at hfin h
    simp only [List.mem_cons] at h
    rcases h with h | h
    · simp at h
    · exact ih st' hfin i p h
  | case6 change rest idx st hskip hauto hdec =>
    intro st' hfin i p h
    unfold reviewLoop at hfin
    rw [if_neg hskip, if_neg hauto, hdec] at hfin
    simp at hfin
  | case7 change rest idx st hskip hauto hdec ih =>
    intro st' hfin i p h
    unfold reviewLoop at hfin h
    rw [if_neg hskip, if_neg hauto, hdec] at hfin h
    simp only [List.mem_cons] at h
    rcases h with h | h
    · simp at h
    · exact ih st' hfin i p h

/-- Prompt indices emitted by the review loop are bounded below by the start
index. -/
theorem reviewLoop_prompt_index_ge (env : GenerateEnv) (autoConfirm : Bool)
    (ofc : List (String × String)) (changes : List ProposedFileChange)
    (idx : Nat) (st : ReviewState) :
    ∀ j p a, Event.promptDecision j p a ∈
      (reviewLoop env autoConfirm ofc changes idx st).1 → idx ≤ j := by
  induction changes, idx, st using reviewLoop.induct env autoConfirm ofc with
  | case1 idx st => intro j p a h; simp [reviewLoop] at h
  | case2 change rest idx st hskip ih =>
    intro j p a h
    unfold reviewLoop at h
    rw [if_pos hskip] at h
    exact Nat.le_of_succ_le (ih j p a h)
  | case3 change rest idx st hskip hauto ih =>
    intro j p a h
    unfold reviewLoop at h
    rw [if_neg hskip, if_pos hauto] at h
    exact Nat.le_of_succ_le (ih j p a h)
  | case4 change rest idx st hskip hauto hdec ih =>
    intro j p a h
    unfold reviewLoop at h
    rw [if_neg hskip, if_neg hauto, hdec] at h
    simp only [List.mem_cons] at h
    rcases h with h | h
    · simp only [Event.promptDecision.injEq] at h
      omega
    · exact Nat.le_of_succ_le (ih j p a h)
  | case5 change rest idx st hskip hauto hdec ih =>
    intro j p a h
    unfold reviewLoop at h
    rw [if_neg hskip, if_neg hauto, hdec] at h
    simp only [List.mem_cons] at h
    rcases h with h | h
    · simp only [Event.promptDecision.injEq] at h
      omega
    · exact Nat.le_of_succ_le (ih j p a h)
  | case6 change rest idx st hskip hauto hdec =>
    intro j p a h
    unfold reviewLoop at h
    rw [if_neg hskip, if_neg hauto, hdec] at h
    simp only [List.mem_singleton, Event.promptDecision.injEq] at h
    omega
  | case7 change rest idx st hskip hauto hdec ih =>
    intro j p a h
    unfold reviewLoop at h
    rw [if_neg hskip, if_neg hauto, hdec] at h
    simp only [List.mem_cons] at h
    rcases h with h | h
    · simp only [Event.promptDecision.injEq] at h
      omega
    · exact Nat.le_of_succ_le (ih j p a h)

/-- A change enqueued by a completed review loop either was already enqueued
in the initial state or carries an index at least the start index. -/
theorem reviewLoop_enqueued (env : GenerateEnv) (autoConfirm : Bool)
    (ofc : List (String × String)) (changes : List ProposedFileChange)
    (idx : Nat) (st : ReviewState) :
    ∀ st' j c, (reviewLoop env autoConfirm ofc changes idx st).2 = .finished st' →
      (j, c) ∈ st'.changesToApply →
      (j, c) ∈ st.changesToApply ∨ idx ≤ j := by
  induction changes, idx, st using reviewLoop.induct env autoConfirm ofc with
  | case1 idx st =>
    intro st' j c hfin hmem
    simp only [reviewLoop, ReviewResult.finished.injEq] at hfin
    subst hfin
    exact Or.inl hmem
  | case2 change rest idx st hskip ih =>
    intro st' j c hfin hmem
    unfold reviewLoop at hfin
    rw [if_pos hskip] at hfin
    rcases ih st' j c hfin hmem with h | h
    · exact Or.inl h
    · exact Or.inr (Nat.le_of_succ_le h)
  | case3 change rest idx st hskip hauto ih =>
    intro st' j c hfin hmem
    unfold reviewLoop at hfin
    rw [if_neg hskip, if_pos hauto] at hfin
    rcases ih st' j c hfin hmem with h | h
    · simp only [List.mem_append, List.mem_singleton, Prod.mk.injEq] at h
      rcases h with h | ⟨h1, h2⟩
      · exact Or.inl h
      · exact Or.inr (by omega)
    · exact Or.inr (Nat.le_of_succ_le h)
  | case4 change rest idx st hskip hauto hdec ih =>
    intro st' j c hfin hmem
    unfold reviewLoop at hfin
    rw [if_neg hskip, if_neg hauto, hdec] at hfin
    rcases ih st' j c hfin hmem with h | h
    · simp only [List.mem_append, List.mem_singleton, Prod.mk.injEq] at h
      rcases h with h | ⟨h1, h2⟩
      · exact Or.inl h
      · exact Or.inr (by omega)
    · exact Or.inr (Nat.le_of_succ_le h)
  | case5 change rest idx st hskip hauto hdec ih =>
    intro st' j c hfin hmem
    unfold reviewLoop at hfin
    rw [if_neg hskip, if_neg hauto, hdec] at hfin
    rcases ih st' j c hfin hmem with h | h
    · simp only [List.mem_append, List.mem_singleton, Prod.mk.injEq] at h
      rcases h with h | ⟨h1, h2⟩
      · exact Or.inl h
      · exact Or.inr (by omega)
    · exact Or.inr (Nat.le_of_succ_le h)
  | case6 change rest idx st hskip hauto hdec =>
    intro st' j c hfin hmem
    unfold reviewLoop at hfin
    rw [if_neg hskip, if_neg hauto, hdec] at hfin
    simp at hfin
  | case7 change rest idx st hskip hauto hdec ih =>
    intro st' j c hfin hmem
    unfold reviewLoop at hfin
    rw [if_neg hskip, if_neg hauto, hdec] at hfin
    rcases ih st' j c hfin hmem with h | h
    · exact Or.inl h
    · exact Or.inr (Nat.le_of_succ_le h)

/-- A change whose `modify` diff renders empty is skipped by the review loop
with `continue`: no decision prompt carries its index, and nothing with its
index is newly enqueued. -/
theorem reviewLoop_skip_spec (env : GenerateEnv) (autoConfirm : Bool)
    (ofc : List (String × String)) (changes : List ProposedFileChange)
    (idx : Nat) (st : ReviewState) :
    ∀ k ch, changes[k]? = some ch →
      (ch.action == "modify" &&
        generateUnifiedDiff ((ofc.lookup ch.filePath).getD "")
          (ch.newContent.getD "") == "") = true →
      (∀ p a, Event.promptDecision (idx + k) p a ∉
        (reviewLoop env autoConfirm ofc changes idx st).1) ∧
      (∀ st' c, (reviewLoop env autoConfirm ofc changes idx st).2 = .finished st' →
        (idx + k, c) ∈ st'.changesToApply → (idx + k, c) ∈ st.changesToApply) := by
  induction changes, idx, st using reviewLoop.induct env autoConfirm ofc with
  | case1 idx st =>
    intro k ch hch hcond
    simp at hch
  | case2 change rest idx st hskip ih =>
    intro k ch hch hcond
    cases k with
    | zero =>
      constructor
      · intro p a h
        unfold reviewLoop at h
        rw [if_pos hskip] at h
        have := reviewLoop_prompt_index_ge env autoConfirm ofc rest (idx + 1) st _ p a h
        omega
      · intro st' c hfin hmem
        unfold reviewLoop at hfin
        rw [if_pos hskip] at hfin
        rcases reviewLoop_enqueued env autoConfirm ofc rest (idx + 1) st st' _ c hfin hmem with
          h | h
        · exact h
        · omega
    | succ k =>
      simp only [List.getElem?_cons_succ] at hch
      have ihk := ih k ch hch hcond
      have hx : idx + (k + 1) = idx + 1 + k := by omega
      rw [hx]
      constructor
      · intro p a h
        unfold reviewLoop at h
        rw [if_pos hskip] at h
        exact ihk.1 p a h
      · intro st' c hfin hmem
        unfold reviewLoop at hfin
        rw [if_pos hskip] at hfin
        exact ihk.2 st' c hfin hmem
  | case3 change rest idx st hskip hauto ih =>
    intro k ch hch hcond
    cases k with
    | zero =>
      simp only [List.getElem?_cons_zero, Option.some.injEq] at hch
      subst hch
      exact absurd hcond hskip
    | succ k =>
      simp only [List.getElem?_cons_succ] at hch
      have ihk := ih k ch hch hcond
      have hx : idx + (k + 1) = idx + 1 + k := by omega
      rw [hx]
      constructor
      · intro p a h
        unfold reviewLoop at h
        rw [if_neg hskip, if_pos hauto] at h
        exact ihk.1 p a h
      · intro st' c hfin hmem
        unfold reviewLoop at hfin
        rw [if_neg hskip, if_pos hauto] at hfin
        have := ihk.2 st' c hfin hmem
        simp only [List.mem_append, List.mem_singleton, Prod.mk.injEq] at this
        rcases this with h | ⟨h1, h2⟩
        · exact h
        · omega
  | case4 change rest idx st hskip hauto hdec ih =>
    intro k ch hch hcond
    cases k with
    | zero =>
      simp only [List.getElem?_cons_zero, Option.some.injEq] at hch
      subst hch
      exact absurd hcond hskip
    | succ k =>
      simp only [List.getElem?_cons_succ] at hch
      have ihk := ih k ch hch hcond
      have hx : idx + (k + 1) = idx + 1 + k := by omega
      rw [hx]
      constructor
      · intro p a h
        unfold reviewLoop at h
        rw [if_neg hskip, if_neg hauto, hdec] at h
        simp only [List.mem_cons] at h
        rcases h with h | h
        · simp only [Event.promptDecision.injEq] at h
          omega
        · exact ihk.1 p a h
      · intro st' c hfin hmem
        unfold reviewLoop at hfin
        rw [if_neg hskip, if_neg hauto, hdec] at hfin
        have := ihk.2 st' c hfin hmem
        simp only [List.mem_append, List.mem_singleton, Prod.mk.injEq] at this
        rcases this with h | ⟨h1, h2⟩
        · exact h
        · omega
  | case5 change rest idx st hskip hauto hdec ih =>
    intro k ch hch hcond
    cases k with
    | zero =>
      simp only [List.getElem?_cons_zero, Option.some.injEq] at hch
      subst hch
      exact absurd hcond hskip
    | succ k =>
      simp only [List.getElem?_cons_succ] at hch
      have ihk := ih k ch hch hcond
      have hx : idx + (k + 1) = idx + 1 + k := by omega
      rw [hx]
      constructor
      · intro p a h
        unfold reviewLoop at h
        rw [if_neg hskip, if_neg hauto, hdec] at h
        simp only [List.mem_cons] at h
        rcases h with h | h
        · simp only [Event.promptDecision.injEq] at h
          omega
        · exact ihk.1 p a h
      · intro st' c hfin hmem
        unfold reviewLoop at hfin
        rw [if_neg hskip, if_neg hauto, hdec] at hfin
        have := ihk.2 st' c hfin hmem
        simp only [List.mem_append, List.mem_singleton, Prod.mk.injEq] at this
        rcases this with h | ⟨h1, h2⟩
        · exact h
        · omega
  | case6 change rest idx st hskip hauto hdec =>
    intro k ch hch hcond
    cases k with
    | zero =>
      simp only [List.getElem?_cons_zero, Option.some.injEq] at hch
      subst hch
      exact absurd hcond hskip
    | succ k =>
      constructor
      · intro p a h
        unfold reviewLoop at h
        rw [if_neg hskip, if_neg hauto, hdec] at h
        simp only [List.mem_singleton, Event.promptDecision.injEq] at h
        omega
      · intro st' c hfin hmem
        unfold reviewLoop at hfin
        rw [if_neg hskip, if_neg hauto, hdec] at hfin
        simp at hfin
  | case7 change rest idx st hskip hauto hdec ih =>
    intro k ch hch hcond
    cases k with
    | zero =>
      simp only [List.getElem?_cons_zero, Option.some.injEq] at hch
      subst hch
      exact absurd hcond hskip
    | succ k =>
      simp only [List.getElem?_cons_succ] at hch
      have ihk := ih k ch hch hcond
      have hx : idx + (k + 1) = idx + 1 + k := by omega
      rw [hx]
      constructor
      · intro p a h
        unfold reviewLoop at h
        rw [if_neg hskip, if_neg hauto, hdec] at h
        simp only [List.mem_cons] at h
        rcases h with h | h
        · simp only [Event.promptDecision.injEq] at h
          omega
        · exact ihk.1 p a h
      · intro st' c hfin hmem
        unfold reviewLoop at hfin
        rw [if_neg hskip, if_neg hauto, hdec] at hfin
        exact ihk.2 st' c hfin hmem

/-- The `applyFileChange` invocations of the apply loop are exactly the
enqueued changes, in order, regardless of any apply failures. -/
theorem applyLoop_filter (env : GenerateEnv) (projectRoot : String)
    (l : List (Nat × ProposedFileChange)) :
    ∀ n, (applyLoop env projectRoot l n).filter isApplyCallEvt =
      l.map (fun x => Event.applyCall x.1 x.2.filePath (applyFileChange projectRoot x.2)) := by
  induction l with
  | nil => intro n; simp [applyLoop]
  | cons hd tl ih =>
    intro n
    obtain ⟨idx, change⟩ := hd
    unfold applyLoop
    cases hc : applyFileChange projectRoot change <;>
      cases har : env.applyResults n <;>
      simp [isApplyCallEvt, List.filter_append, ih, hc]

/-- Every event emitted by the apply loop is an `applyFileChange` invocation
or a failure report. -/
theorem applyLoop_events (env : GenerateEnv) (projectRoot : String)
    (l : List (Nat × ProposedFileChange)) :
    ∀ n e, e ∈ applyLoop env projectRoot l n →
      (∃ i p c, e = Event.applyCall i p c) ∨ ∃ p m, e = Event.applyFailureReport p m := by
  induction l with
  | nil => intro n e h; simp [applyLoop] at h
  | cons hd tl ih =>
    intro n e h
    obtain ⟨idx, change⟩ := hd
    unfold applyLoop at h
    rcases List.mem_cons.1 h with h1 | h1
    · exact Or.inl ⟨_, _, _, h1⟩
    · rcases List.mem_append.1 h1 with h2 | h2
      · cases hc : applyFileChange projectRoot change <;>
          cases har : env.applyResults n <;>
          rw [hc, har] at h2 <;> simp at h2
        all_goals exact Or.inr ⟨_, _, h2⟩
      · exact ih (n + 1) e h2

/-- Every `applyFileChange` invocation event of the apply loop corresponds to
an enqueued change with that index, path and dispatched call. -/
theorem applyLoop_applyCall_mem (env : GenerateEnv) (projectRoot : String)
    (l : List (Nat × ProposedFileChange)) :
    ∀ n j q c, Event.applyCall j q c ∈ applyLoop env projectRoot l n →
      ∃ ch, (j, ch) ∈ l ∧ q = ch.filePath ∧ c = applyFileChange projectRoot ch := by
  induction l with
  | nil => intro n j q c h; simp [applyLoop] at h
  | cons hd tl ih =>
    intro n j q c h
    obtain ⟨idx, change⟩ := hd
    unfold applyLoop at h
    rcases List.mem_cons.1 h with h1 | h1
    · simp only [Event.applyCall.injEq] at h1
      exact ⟨change, by simp [h1.1], h1.2.1, h1.2.2⟩
    · rcases List.mem_append.1 h1 with h2 | h2
      · cases hc : applyFileChange projectRoot change <;>
          cases har : env.applyResults n <;>
          rw [hc, har] at h2 <;> simp at h2
      · rcases ih (n + 1) j q c h2 with ⟨ch, hmem, hq, hc⟩
        exact ⟨ch, List.mem_cons_of_mem _ hmem, hq, hc⟩

/-- When the backend mutation call of the `k`-th enqueued change fails, the
apply loop reports the failure with the affected path and the error message
and keeps going. -/
theorem applyLoop_failure_mem (env : GenerateEnv) (projectRoot : String)
    (l : List (Nat × ProposedFileChange)) :
    ∀ n k idx ch m, l[k]? = some (idx, ch) →
      env.applyResults (n + k) = .error m →
      (applyFileChange projectRoot ch).isSome = true →
      Event.applyFailureReport ch.filePath m ∈ applyLoop env projectRoot l n := by
  induction l with
  | nil => intro n k idx ch m hch; simp at hch
  | cons hd tl ih =>
    intro n k idx ch m hch har hsome
    obtain ⟨idx0, change0⟩ := hd
    cases k with
    | zero =>
      simp only [List.getElem?_cons_zero, Option.some.injEq, Prod.mk.injEq] at hch
      rw [Nat.add_zero] at har
      unfold applyLoop
      rcases hch with ⟨h1, h2⟩
      subst h2
      rcases Option.isSome_iff_exists.1 hsome with ⟨call, hc⟩
      rw [hc, har]
      simp
    | succ k =>
      simp only [List.getElem?_cons_succ] at hch
      unfold applyLoop
      have := ih (n + 1) k idx ch m hch (by rw [show n + 1 + k = n + (k + 1) from by omega]; exact har) hsome
      simp only [List.mem_cons, List.mem_append]
      tauto

/-- The abort / nothing-confirmed exit either returns directly, or appends a
single successful checkout, or appends the checkout whose failure escalates
to the catch-all handler. -/
theorem abortOutcome_cases (env : GenerateEnv) (g : GitPreOut) (tr : List Event)
    (final : Outcome) :
    abortOutcome env g tr final = (tr, final) ∨
    (revertGuard g = true ∧ env.checkoutResult = .ok () ∧
      abortOutcome env g tr final =
        (tr ++ [Event.checkoutCall (g.originalBranch.getD "")], final)) ∨
    (∃ m, revertGuard g = true ∧ env.checkoutResult = .error m ∧
      abortOutcome env g tr final =
        (tr ++ [Event.checkoutCall (g.originalBranch.getD "")], .failed m)) := by
  unfold abortOutcome
  split
  · rename_i hguard
    cases hc : env.checkoutResult with
    | ok u => cases u; right; left; exact ⟨hguard, rfl, rfl⟩
    | error m => right; right; exact ⟨m, hguard, rfl, rfl⟩
  · rename_i hguard
    left
    rfl

/-- When the revert guard holds and the checkout call fails, the exit
terminates as `failed` with the checkout error. -/
theorem abortOutcome_checkout_error (env : GenerateEnv) (g : GitPreOut)
    (tr : List Event) (final : Outcome) (m : String)
    (hguard : revertGuard g = true) (hc : env.checkoutResult = .error m) :
    abortOutcome env g tr final =
      (tr ++ [Event.checkoutCall (g.originalBranch.getD "")], .failed m) := by
  unfold abortOutcome
  rw [if_pos hguard, hc]

/-- The trace of the apply-and-stage phase is the incoming trace, the apply
loop events, and possibly one staging call. -/
theorem applyAndStage_trace (env : GenerateEnv) (projectRoot : String)
    (g : GitPreOut) (tr : List Event) (st : ReviewState) :
    (applyAndStage env projectRoot g tr st).1 =
      tr ++ applyLoop env projectRoot st.changesToApply 0 ∨
    (applyAndStage env projectRoot g tr st).1 =
      tr ++ applyLoop env projectRoot st.changesToApply 0 ++
        [Event.stageCall st.filesModifiedOrAdded] := by
  unfold applyAndStage
  split
  · cases hs : env.stageResult <;> simp
  · simp

/-- The apply-and-stage phase ends `completed` unless staging failed, in
which case the staging error escalates to the catch-all handler. -/
theorem applyAndStage_outcome (env : GenerateEnv) (projectRoot : String)
    (g : GitPreOut) (tr : List Event) (st : ReviewState) :
    (applyAndStage env projectRoot g tr st).2 = .completed ∨
    ∃ m, env.stageResult = .error m ∧
      (applyAndStage env projectRoot g tr st).2 = .failed m := by
  unfold applyAndStage
  split
  · cases hs : env.stageResult with
    | ok u => left; simp [hs]
    | error m => right; exact ⟨m, rfl, by simp [hs]⟩
  · left; simp

/-- A staging call observed in the apply-and-stage phase either predates the
phase or carries exactly `filesModifiedOrAdded`. -/
theorem applyAndStage_stage_mem (env : GenerateEnv) (projectRoot : String)
    (g : GitPreOut) (tr : List Event) (st : ReviewState) (fs : List String)
    (h : Event.stageCall fs ∈ (applyAndStage env projectRoot g tr st).1) :
    Event.stageCall fs ∈ tr ∨ fs = st.filesModifiedOrAdded := by
  rcases applyAndStage_trace env projectRoot g tr st with ht | ht <;> rw [ht] at h
  · rcases List.mem_append.1 h with h1 | h1
    · exact Or.inl h1
    · rcases applyLoop_events env projectRoot st.changesToApply 0 _ h1 with
        ⟨i, p, c, hh⟩ | ⟨p, m, hh⟩ <;> simp at hh
  · rcases List.mem_append.1 h with h1 | h1
    · rcases List.mem_append.1 h1 with h2 | h2
      · exact Or.inl h2
      · rcases applyLoop_events env projectRoot st.changesToApply 0 _ h2 with
          ⟨i, p, c, hh⟩ | ⟨p, m, hh⟩ <;> simp at hh
    · simp only [List.mem_singleton, Event.stageCall.injEq] at h1
      exact Or.inr h1

/-- Exhaustive description of one `generate` invocation: pre-check failure,
scan failure, LLM failure, empty proposal list, aborted review, review with
nothing confirmed, or review followed by the apply-and-stage phase. -/
theorem runGenerate_cases (env : GenerateEnv) (prompt projectRoot : String)
    (allScanPaths : List String) (opts0 : GenerateOptions) :
    (∃ tr0 e, gitPreflight env prompt opts0.yes opts0.noGit opts0.branch opts0 =
        (tr0, .error e) ∧
      runGenerate env prompt projectRoot allScanPaths opts0 = (tr0, .failed e)) ∨
    (∃ tr0 g, gitPreflight env prompt opts0.yes opts0.noGit opts0.branch opts0 =
        (tr0, .ok g) ∧
      ((∃ e, env.scanResult = .error e ∧
          runGenerate env prompt projectRoot allScanPaths opts0 =
            (tr0 ++ [Event.scanCall allScanPaths projectRoot], .failed e)) ∨
       (∃ scannedFiles, env.scanResult = .ok scannedFiles ∧
         ((∃ e, env.llmResult = .error e ∧
             runGenerate env prompt projectRoot allScanPaths opts0 =
               (tr0 ++ [Event.scanCall allScanPaths projectRoot] ++ [Event.llmCall],
                 .failed e)) ∨
          (∃ llmOutput, env.llmResult = .ok llmOutput ∧
            ((llmOutput.changes.isEmpty = true ∧
               runGenerate env prompt projectRoot allScanPaths opts0 =
                 (tr0 ++ [Event.scanCall allScanPaths projectRoot] ++ [Event.llmCall],
                   .noChangesProposed)) ∨
             (∃ trR, llmOutput.changes.isEmpty = false ∧
               reviewPhase env opts0.yes (originalFileContentsOf scannedFiles)
                 llmOutput.changes = (trR, .aborted) ∧
               runGenerate env prompt projectRoot allScanPaths opts0 =
                 abortOutcome env g
                   (tr0 ++ [Event.scanCall allScanPaths projectRoot] ++ [Event.llmCall] ++ trR)
                   .aborted) ∨
             (∃ trR st, llmOutput.changes.isEmpty = false ∧
               reviewPhase env opts0.yes (originalFileContentsOf scannedFiles)
                 llmOutput.changes = (trR, .finished st) ∧
               st.changesToApply.isEmpty = true ∧
               runGenerate env prompt projectRoot allScanPaths opts0 =
                 abortOutcome env g
                   (tr0 ++ [Event.scanCall allScanPaths projectRoot] ++ [Event.llmCall] ++ trR)
                   .noneConfirmed) ∨
             (∃ trR st, llmOutput.changes.isEmpty = false ∧
               reviewPhase env opts0.yes (originalFileContentsOf scannedFiles)
                 llmOutput.changes = (trR, .finished st) ∧
               st.changesToApply.isEmpty = false ∧
               runGenerate env prompt projectRoot allScanPaths opts0 =
                 applyAndStage env projectRoot g
                   (tr0 ++ [Event.scanCall allScanPaths projectRoot] ++ [Event.llmCall] ++ trR)
                   st))))))) := by
  rcases hpre : gitPreflight env prompt opts0.yes opts0.noGit opts0.branch opts0 with ⟨tr0, res0⟩
  cases res0 with
  | error e =>
    left
    exact ⟨tr0, e, rfl, by simp [runGenerate, hpre]⟩
  | ok g =>
    right
    refine ⟨tr0, g, rfl, ?_⟩
    cases hscan : env.scanResult with
    | error e =>
      left
      exact ⟨e, rfl, by simp [runGenerate, hpre, hscan]⟩
    | ok scannedFiles =>
      right
      refine ⟨scannedFiles, rfl, ?_⟩
      cases hllm : env.llmResult with
      | error e =>
        left
        exact ⟨e, rfl, by simp [runGenerate, hpre, hscan, hllm]⟩
      | ok llmOutput =>
        right
        refine ⟨llmOutput, rfl, ?_⟩
        cases hemp : llmOutput.changes.isEmpty with
        | true =>
          left
          exact ⟨rfl, by simp [runGenerate, hpre, hscan, hllm, hemp]⟩
        | false =>
          right
          rcases hrev : reviewPhase env opts0.yes (originalFileContentsOf scannedFiles)
            llmOutput.changes with ⟨trR, rres⟩
          cases rres with
          | aborted =>
            left
            exact ⟨trR, rfl, rfl, by simp [runGenerate, hpre, hscan, hllm, hemp, hrev]⟩
          | finished st =>
            right
            cases hcta : st.changesToApply.isEmpty with
            | true =>
              left
              exact ⟨trR, st, rfl, rfl,
                hcta, by simp [runGenerate, hpre, hscan, hllm, hemp, hrev, hcta]⟩
            | false =>
              right
              exact ⟨trR, st, rfl, rfl,
                hcta, by simp [runGenerate, hpre, hscan, hllm, hemp, hrev, hcta]⟩

/-- A kept slug character is never the dash separator. -/
theorem isSlugChar_ne_dash (c : Char) (h : isSlugChar c = true) : (c == '-') = false := by
  cases hbe : c == '-'
  · rfl
  · exfalso
    have hc : c = '-' := beq_iff_eq.mp hbe
    subst hc
    exact absurd h (by decide)

/-- The left-to-right regex-replacement scan agrees with the two-step
specification reading: substitute a separator for every non-slug character,
then collapse consecutive separators. -/
theorem collapseAux_eq_squeezeAux (cs : List Char) :
    ∀ b, collapseAux b cs = squeezeAux b (cs.map sepMap) := by
  induction cs with
  | nil => intro b; rfl
  | cons c rest ih =>
    intro b
    by_cases hc : isSlugChar c = true
    · have hne : (c == '-') = false := isSlugChar_ne_dash c hc
      have hsep : sepMap c = c := by simp [sepMap, hc]
      simp [collapseAux, squeezeAux, hc, hne, hsep, ih]
    · have hsep : sepMap c = '-' := by simp [sepMap, hc]
      cases b <;> simp [collapseAux, squeezeAux, hc, hsep, ih]

/-- Restatement of `gitPreflight_events` for a destructured pre-check. -/
theorem preflight_fst_events (env : GenerateEnv) (prompt : String)
    (autoConfirm skipGit : Bool) (customBranchName : Option String)
    (opts0 : GenerateOptions) (tr0 : List Event) (res : Except String GitPreOut)
    (hpre : gitPreflight env prompt autoConfirm skipGit customBranchName opts0 = (tr0, res)) :
    ∀ e ∈ tr0, e = .isGitRepoCall ∨ e = .currentBranchCall ∨ e = .promptProceedGit ∨
      e = .promptBranchName ∨ ∃ b, e = .createBranchCall b := by
  intro e he
  refine gitPreflight_events env prompt autoConfirm skipGit customBranchName opts0 e ?_
  rw [hpre]
  exact he

/-- Restatement of `reviewLoop_events` for a destructured review phase. -/
theorem reviewPhase_events (env : GenerateEnv) (autoConfirm : Bool)
    (ofc : List (String × String)) (changes : List ProposedFileChange)
    (trR : List Event) (rres : ReviewResult)
    (hrev : reviewPhase env autoConfirm ofc changes = (trR, rres)) :
    ∀ e ∈ trR, ∃ i p a, e = Event.promptDecision i p a := by
  intro e he
  unfold reviewPhase at hrev
  have h2 := reviewLoop_events env autoConfirm ofc changes 0 ⟨[], [], autoConfirm, 0⟩ e
  rw [hrev] at h2
  exact h2 he

/-- Restatement of `reviewLoop_finished_no_abort` for a destructured review
phase. -/
theorem reviewPhase_finished_no_abort (env : GenerateEnv) (autoConfirm : Bool)
    (ofc : List (String × String)) (changes : List ProposedFileChange)
    (trR : List Event) (st : ReviewState)
    (hrev : reviewPhase env autoConfirm ofc changes = (trR, .finished st)) :
    ∀ i p, Event.promptDecision i p .abort ∉ trR := by
  intro i p hmem
  unfold reviewPhase at hrev
  have h2 := reviewLoop_finished_no_abort env autoConfirm ofc changes 0
    ⟨[], [], autoConfirm, 0⟩ st
  rw [hrev] at h2
  exact h2 rfl i p hmem

/-- Restatement of `reviewLoop_skip_spec` for a destructured review phase
started from the empty state: a no-op `modify` change at position `k` is
never prompted for and never enqueued. -/
theorem reviewPhase_skip_spec (env : GenerateEnv) (autoConfirm : Bool)
    (ofc : List (String × String)) (changes : List ProposedFileChange)
    (trR : List Event) (rres : ReviewResult) (k : Nat) (ch : ProposedFileChange)
    (hrev : reviewPhase env autoConfirm ofc changes = (trR, rres))
    (hch : changes[k]? = some ch)
    (hcond : (ch.action == "modify" &&
      generateUnifiedDiff ((ofc.lookup ch.filePath).getD "")
        (ch.newContent.getD "") == "") = true) :
    (∀ p a, Event.promptDecision k p a ∉ trR) ∧
    (∀ st' c, rres = .finished st' → (k, c) ∉ st'.changesToApply) := by
  unfold reviewPhase at hrev
  have h2 := reviewLoop_skip_spec env autoConfirm ofc changes 0
    ⟨[], [], autoConfirm, 0⟩ k ch hch hcond
  rw [hrev] at h2
  constructor
  · intro p a hmem
    exact h2.1 p a (by rw [Nat.zero_add]; exact hmem)
  · intro st' c hfin hmem
    have h3 := h2.2 st' c (by rw [hfin]) (by rw [Nat.zero_add]; exact hmem)
    simp at h3

/-- The Git pre-check trace, restated: no decision prompt. -/
theorem preflight_fst_no_decision_prompt (env : GenerateEnv) (prompt : String)
    (autoConfirm skipGit : Bool) (customBranchName : Option String)
    (opts0 : GenerateOptions) (tr0 : List Event) (res : Except String GitPreOut)
    (hpre : gitPreflight env prompt autoConfirm skipGit customBranchName opts0 = (tr0, res))
    (i : Nat) (p : String) (a : Confirm) :
    Event.promptDecision i p a ∉ tr0 := by
  intro h
  rcases preflight_fst_events env prompt autoConfirm skipGit customBranchName opts0 tr0 res
    hpre _ h with h1 | h1 | h1 | h1 | ⟨b, h1⟩ <;> simp_all

/-- The Git pre-check trace, restated: no `applyFileChange` invocation. -/
theorem preflight_fst_no_applyCall (env : GenerateEnv) (prompt : String)
    (autoConfirm skipGit : Bool) (customBranchName : Option String)
    (opts0 : GenerateOptions) (tr0 : List Event) (res : Except String GitPreOut)
    (hpre : gitPreflight env prompt autoConfirm skipGit customBranchName opts0 = (tr0, res))
    (j : Nat) (q : String) (c : Option BackendCall) :
    Event.applyCall j q c ∉ tr0 := by
  intro h
  rcases preflight_fst_events env prompt autoConfirm skipGit customBranchName opts0 tr0 res
    hpre _ h with h1 | h1 | h1 | h1 | ⟨b, h1⟩ <;> simp_all

/-- The Git pre-check trace, restated: no staging call. -/
theorem preflight_fst_no_stageCall (env : GenerateEnv) (prompt : String)
    (autoConfirm skipGit : Bool) (customBranchName : Option String)
    (opts0 : GenerateOptions) (tr0 : List Event) (res : Except String GitPreOut)
    (hpre : gitPreflight env prompt autoConfirm skipGit customBranchName opts0 = (tr0, res))
    (fs : List String) :
    Event.stageCall fs ∉ tr0 := by
  intro h
  rcases preflight_fst_events env prompt autoConfirm skipGit customBranchName opts0 tr0 res
    hpre _ h with h1 | h1 | h1 | h1 | ⟨b, h1⟩ <;> simp_all

/-- The Git pre-check trace, restated: no LLM call. -/
theorem preflight_fst_no_llmCall (env : GenerateEnv) (prompt : String)
    (autoConfirm skipGit : Bool) (customBranchName : Option String)
    (opts0 : GenerateOptions) (tr0 : List Event) (res : Except String GitPreOut)
    (hpre : gitPreflight env prompt autoConfirm skipGit customBranchName opts0 = (tr0, res)) :
    Event.llmCall ∉ tr0 := by
  intro h
  rcases preflight_fst_events env prompt autoConfirm skipGit customBranchName opts0 tr0 res
    hpre _ h with h1 | h1 | h1 | h1 | ⟨b, h1⟩ <;> simp_all

/-- The Git pre-check trace, restated: no checkout call. -/
theorem preflight_fst_no_checkoutCall (env : GenerateEnv) (prompt : String)
    (autoConfirm skipGit : Bool) (customBranchName : Option String)
    (opts0 : GenerateOptions) (tr0 : List Event) (res : Except String GitPreOut)
    (hpre : gitPreflight env prompt autoConfirm skipGit customBranchName opts0 = (tr0, res))
    (b : String) :
    Event.checkoutCall b ∉ tr0 := by
  intro h
  rcases preflight_fst_events env prompt autoConfirm skipGit customBranchName opts0 tr0 res
    hpre _ h with h1 | h1 | h1 | h1 | ⟨b1, h1⟩ <;> simp_all

/-- The review-phase trace, restated: no `applyFileChange` invocation. -/
theorem reviewPhase_no_applyCall (env : GenerateEnv) (autoConfirm : Bool)
    (ofc : List (String × String)) (changes : List ProposedFileChange)
    (trR : List Event) (rres : ReviewResult)
    (hrev : reviewPhase env autoConfirm ofc changes = (trR, rres))
    (j : Nat) (q : String) (c : Option BackendCall) :
    Event.applyCall j q c ∉ trR := by
  intro h
  rcases reviewPhase_events env autoConfirm ofc changes trR rres hrev _ h with ⟨i, p, a, h1⟩
  simp_all

/-- The review-phase trace, restated: no staging call. -/
theorem reviewPhase_no_stageCall (env : GenerateEnv) (autoConfirm : Bool)
    (ofc : List (String × String)) (changes : List ProposedFileChange)
    (trR : List Event) (rres : ReviewResult)
    (hrev : reviewPhase env autoConfirm ofc changes = (trR, rres))
    (fs : List String) :
    Event.stageCall fs ∉ trR := by
  intro h
  rcases reviewPhase_events env autoConfirm ofc changes trR rres hrev _ h with ⟨i, p, a, h1⟩
  simp_all

/-- The review-phase trace, restated: no checkout call. -/
theorem reviewPhase_no_checkoutCall (env : GenerateEnv) (autoConfirm : Bool)
    (ofc : List (String × String)) (changes : List ProposedFileChange)
    (trR : List Event) (rres : ReviewResult)
    (hrev : reviewPhase env autoConfirm ofc changes = (trR, rres))
    (b : String) :
    Event.checkoutCall b ∉ trR := by
  intro h
  rcases reviewPhase_events env autoConfirm ofc changes trR rres hrev _ h with ⟨i, p, a, h1⟩
  simp_all

/-- The apply loop never emits a decision prompt. -/
theorem applyLoop_no_decision_prompt (env : GenerateEnv) (projectRoot : String)
    (l : List (Nat × ProposedFileChange)) (n : Nat) (i : Nat) (p : String) (a : Confirm) :
    Event.promptDecision i p a ∉ applyLoop env projectRoot l n := by
  intro h
  rcases applyLoop_events env projectRoot l n _ h with ⟨j, q, c, h1⟩ | ⟨q, m, h1⟩ <;> simp_all

/-- The apply loop never stages files. -/
theorem applyLoop_no_stageCall (env : GenerateEnv) (projectRoot : String)
    (l : List (Nat × ProposedFileChange)) (n : Nat) (fs : List String) :
    Event.stageCall fs ∉ applyLoop env projectRoot l n := by
  intro h
  rcases applyLoop_events env projectRoot l n _ h with ⟨j, q, c, h1⟩ | ⟨q, m, h1⟩ <;> simp_all

/-- C2: for every run in which the decision answered at some position is
`abort`, the apply phase is never reached: no `applyFileChange` invocation
occurs anywhere in the run, including for positions confirmed `apply`
earlier in the same review pass. -/
theorem c2_abort_decision_blocks_all_applies (env : GenerateEnv)
    (prompt projectRoot : String) (allScanPaths : List String)
    (opts0 : GenerateOptions) (i : Nat) (p : String)
    (h : Event.promptDecision i p .abort ∈
      (runGenerate env prompt projectRoot allScanPaths opts0).1) :
    ∀ j q c, Event.applyCall j q c ∉
      (runGenerate env prompt projectRoot allScanPaths opts0).1 := by
  intro j q c happly
  rcases runGenerate_cases env prompt projectRoot allScanPaths opts0 with
    ⟨tr0, e, hpre, hrun⟩ |
    ⟨tr0, g, hpre,
      ⟨e, hscan, hrun⟩ |
      ⟨files, hscan,
        ⟨e, hllm, hrun⟩ |
        ⟨out, hllm,
          ⟨hemp, hrun⟩ |
          ⟨trR, hemp, hrev, hrun⟩ |
          ⟨trR, st, hemp, hrev, hcta, hrun⟩ |
          ⟨trR, st, hemp, hrev, hcta, hrun⟩⟩⟩⟩
  · rw [hrun] at h
    exact preflight_fst_no_decision_prompt env prompt opts0.yes opts0.noGit opts0.branch
      opts0 tr0 _ hpre i p .abort h
  · rw [hrun] at h
    rcases List.mem_append.1 h with h1 | h1
    · exact preflight_fst_no_decision_prompt env prompt opts0.yes opts0.noGit opts0.branch
        opts0 tr0 _ hpre i p .abort h1
    · simp at h1
  · rw [hrun] at h
    rcases List.mem_append.1 h with h1 | h1
    · rcases List.mem_append.1 h1 with h2 | h2
      · exact preflight_fst_no_decision_prompt env prompt opts0.yes opts0.noGit opts0.branch
          opts0 tr0 _ hpre i p .abort h2
      · simp at h2
    · simp at h1
  · rw [hrun] at h
    rcases List.mem_append.1 h with h1 | h1
    · rcases List.mem_append.1 h1 with h2 | h2
      · exact preflight_fst_no_decision_prompt env prompt opts0.yes opts0.noGit opts0.branch
          opts0 tr0 _ hpre i p .abort h2
      · simp at h2
    · simp at h1
  · rcases abortOutcome_cases env g
      (tr0 ++ [Event.scanCall allScanPaths projectRoot] ++ [Event.llmCall] ++ trR)
      .aborted with hAO | ⟨hg, hc, hAO⟩ | ⟨m, hg, hc, hAO⟩ <;>
      rw [hrun, hAO] at happly
    · rcases List.mem_append.1 happly with h1 | h1
      · rcases List.mem_append.1 h1 with h2 | h2
        · rcases List.mem_append.1 h2 with h3 | h3
          · exact preflight_fst_no_applyCall env prompt opts0.yes opts0.noGit opts0.branch
              opts0 tr0 _ hpre j q c h3
          · simp at h3
        · simp at h2
      · exact reviewPhase_no_applyCall env opts0.yes (originalFileContentsOf files)
          out.changes trR _ hrev j q c h1
    · rcases List.mem_append.1 happly with h1 | h1
      · rcases List.mem_append.1 h1 with h2 | h2
        · rcases List.mem_append.1 h2 with h3 | h3
          · rcases List.mem_append.1 h3 with h4 | h4
            · exact preflight_fst_no_applyCall env prompt opts0.yes opts0.noGit opts0.branch
                opts0 tr0 _ hpre j q c h4
            · simp at h4
          · simp at h3
        · exact reviewPhase_no_applyCall env opts0.yes (originalFileContentsOf files)
            out.changes trR _ hrev j q c h2
      · simp at h1
    · rcases List.mem_append.1 happly with h1 | h1
      · rcases List.mem_append.1 h1 with h2 | h2
        · rcases List.mem_append.1 h2 with h3 | h3
          · rcases List.mem_append.1 h3 with h4 | h4
            · exact preflight_fst_no_applyCall env prompt opts0.yes opts0.noGit opts0.branch
                opts0 tr0 _ hpre j q c h4
            · simp at h4
          · simp at h3
        · exact reviewPhase_no_applyCall env opts0.yes (originalFileContentsOf files)
            out.changes trR _ hrev j q c h2
      · simp at h1
  · rcases abortOutcome_cases env g
      (tr0 ++ [Event.scanCall allScanPaths projectRoot] ++ [Event.llmCall] ++ trR)
      .noneConfirmed with hAO | ⟨hg, hc, hAO⟩ | ⟨m, hg, hc, hAO⟩ <;>
      rw [hrun, hAO] at h
    · rcases List.mem_append.1 h with h1 | h1
      · rcases List.mem_append.1 h1 with h2 | h2
        · rcases List.mem_append.1 h2 with h3 | h3
          · exact preflight_fst_no_decision_prompt env prompt opts0.yes opts0.noGit
              opts0.branch opts0 tr0 _ hpre i p .abort h3
          · simp at h3
        · simp at h2
      · exact reviewPhase_finished_no_abort env opts0.yes (originalFileContentsOf files)
          out.changes trR st hrev i p h1
    · rcases List.mem_append.1 h with h1 | h1
      · rcases List.mem_append.1 h1 with h2 | h2
        · rcases List.mem_append.1 h2 with h3 | h3
          · rcases List.mem_append.1 h3 with h4 | h4
            · exact preflight_fst_no_decision_prompt env prompt opts0.yes opts0.noGit
                opts0.branch opts0 tr0 _ hpre i p .abort h4
            · simp at h4
          · simp at h3
        · exact reviewPhase_finished_no_abort env opts0.yes (originalFileContentsOf files)
            out.changes trR st hrev i p h2
      · simp at h1
    · rcases List.mem_append.1 h with h1 | h1
      · rcases List.mem_append.1 h1 with h2 | h2
        · rcases List.mem_append.1 h2 with h3 | h3
          · rcases List.mem_append.1 h3 with h4 | h4
            · exact preflight_fst_no_decision_prompt env prompt opts0.yes opts0.noGit
                opts0.branch opts0 tr0 _ hpre i p .abort h4
            · simp at h4
          · simp at h3
        · exact reviewPhase_finished_no_abort env opts0.yes (originalFileContentsOf files)
            out.changes trR st hrev i p h2
      · simp at h1
  · rw [hrun] at h
    rcases applyAndStage_trace env projectRoot g
      (tr0 ++ [Event.scanCall allScanPaths projectRoot] ++ [Event.llmCall] ++ trR) st with
      hAS | hAS <;> rw [hAS] at h
    · rcases List.mem_append.1 h with h1 | h1
      · rcases List.mem_append.1 h1 with h2 | h2
        · rcases List.mem_append.1 h2 with h3 | h3
          · rcases List.mem_append.1 h3 with h4 | h4
            · exact preflight_fst_no_decision_prompt env prompt opts0.yes opts0.noGit
                opts0.branch opts0 tr0 _ hpre i p .abort h4
            · simp at h4
          · simp at h3
        · exact reviewPhase_finished_no_abort env opts0.yes (originalFileContentsOf files)
            out.changes trR st hrev i p h2
      · exact applyLoop_no_decision_prompt env projectRoot st.changesToApply 0 i p .abort h1
    · rcases List.mem_append.1 h with h1 | h1
      · rcases List.mem_append.1 h1 with h2 | h2
        · rcases List.mem_append.1 h2 with h3 | h3
          · rcases List.mem_append.1 h3 with h4 | h4
            · rcases List.mem_append.1 h4 with h5 | h5
              · exact preflight_fst_no_decision_prompt env prompt opts0.yes opts0.noGit
                  opts0.branch opts0 tr0 _ hpre i p .abort h5
              · simp at h5
            · simp at h4
          · exact reviewPhase_finished_no_abort env opts0.yes (originalFileContentsOf files)
              out.changes trR st hrev i p h3
        · exact applyLoop_no_decision_prompt env projectRoot st.changesToApply 0 i p .abort h2
      · simp at h1

/-- Environment of a run with one proposed `add` change, Git skipped, where
the single decision prompt is answered `abort`. -/
def envAbortRun : GenerateEnv where
  isGitRepo := false
  currentBranch := none
  proceedGit := true
  branchNameInput := ""
  createBranchResult := .ok ()
  scanResult := .ok []
  llmResult := .ok
    { changes := [{ filePath := "a.ts", action := "add", newContent := some "x", reason := none }]
      summary := "one add"
      thoughtProcess := none }
  decisions := fun _ => .abort
  applyResults := fun _ => .ok ()
  checkoutResult := .ok ()
  stageResult := .ok ()

/-- C2 witness: in the concrete aborted run the abort answer is recorded and
no `applyFileChange` invocation occurs. -/
theorem c2_witness :
    Event.applyCall 0 "a.ts" none ∉
      (runGenerate envAbortRun "p" "/r" ["."] ⟨false, true, none⟩).1 :=
  c2_abort_decision_blocks_all_applies envAbortRun "p" "/r" ["."] ⟨false, true, none⟩ 0 "a.ts"
    (by decide) 0 "a.ts" none

/-- Environment of a run on a Git repository with auto-confirm on, where the
remote scan call fails after the working branch was already created. -/
def envScanFail : GenerateEnv where
  isGitRepo := true
  currentBranch := some "main"
  proceedGit := true
  branchNameInput := ""
  createBranchResult := .ok ()
  scanResult := .error "network down"
  llmResult := .ok { changes := [], summary := "", thoughtProcess := none }
  decisions := fun _ => .yes
  applyResults := fun _ => .ok ()
  checkoutResult := .ok ()
  stageResult := .ok ()

/-- C3 counterexample: with version control active and auto-confirm on, the
branch-creation call has already been issued by the time the scan fails, so
the run both contains a `createBranch` call and terminates as failed on the
scan error; the claim that no branch-creation call has been issued at the
moment of the scan failure is false on this run. -/
theorem c3_counterexample :
    Event.createBranchCall "feature/add-tests" ∈
      (runGenerate envScanFail "Add tests" "/r" ["."] ⟨true, false, none⟩).1 ∧
    (runGenerate envScanFail "Add tests" "/r" ["."] ⟨true, false, none⟩).2 =
      .failed "network down" := by
  decide

/-- C3 amended: when the scan call fails (the pre-check having completed, in
particular branch creation did not throw), the workflow terminates as
`failed` with the scan error and nothing after the scan happens: no LLM
call, no `applyFileChange` invocation, no staging; the Git pre-check,
including any branch creation, precedes the scan. -/
theorem c3_amended_scan_failure_halts (env : GenerateEnv)
    (prompt projectRoot : String) (allScanPaths : List String)
    (opts0 : GenerateOptions) (e : String)
    (hcb : env.createBranchResult = .ok ())
    (hscan : env.scanResult = .error e) :
    (runGenerate env prompt projectRoot allScanPaths opts0).2 = .failed e ∧
    Event.llmCall ∉ (runGenerate env prompt projectRoot allScanPaths opts0).1 ∧
    (∀ j q c, Event.applyCall j q c ∉
      (runGenerate env prompt projectRoot allScanPaths opts0).1) ∧
    (∀ fs, Event.stageCall fs ∉
      (runGenerate env prompt projectRoot allScanPaths opts0).1) := by
  rcases runGenerate_cases env prompt projectRoot allScanPaths opts0 with
    ⟨tr0, e1, hpre, hrun⟩ | ⟨tr0, g, hpre, hrest⟩
  · have hx := gitPreflight_error env prompt opts0.yes opts0.noGit opts0.branch opts0 e1
      (by rw [hpre])
    rw [hcb] at hx
    simp at hx
  · rcases hrest with ⟨e1, hscan1, hrun⟩ | ⟨files, hscan1, hrest2⟩
    · rw [hscan] at hscan1
      injection hscan1 with he
      subst he
      refine ⟨by rw [hrun], ?_, ?_, ?_⟩
      · rw [hrun]
        intro h
        rcases List.mem_append.1 h with h1 | h1
        · exact preflight_fst_no_llmCall env prompt opts0.yes opts0.noGit opts0.branch
            opts0 tr0 _ hpre h1
        · simp at h1
      · intro j q c
        rw [hrun]
        intro h
        rcases List.mem_append.1 h with h1 | h1
        · exact preflight_fst_no_applyCall env prompt opts0.yes opts0.noGit opts0.branch
            opts0 tr0 _ hpre j q c h1
        · simp at h1
      · intro fs
        rw [hrun]
        intro h
        rcases List.mem_append.1 h with h1 | h1
        · exact preflight_fst_no_stageCall env prompt opts0.yes opts0.noGit opts0.branch
            opts0 tr0 _ hpre fs h1
        · simp at h1
    · rw [hscan] at hscan1
      simp at hscan1

/-- C3 witness: the amended statement applied to the concrete failing-scan
run. -/
theorem c3_witness :
    (runGenerate envScanFail "Add tests" "/r" ["."] ⟨true, false, none⟩).2 =
      .failed "network down" :=
  (c3_amended_scan_failure_halts envScanFail "Add tests" "/r" ["."] ⟨true, false, none⟩
    "network down" rfl rfl).1

/-- Membership in the pre-review trace splits into its four segments. -/
theorem mem_four {α : Type} (e x y : α) (l1 l2 : List α)
    (h : e ∈ l1 ++ [x] ++ [y] ++ l2) :
    e ∈ l1 ∨ e = x ∨ e = y ∨ e ∈ l2 := by
  simp only [List.mem_append, List.mem_singleton] at h
  tauto

/-- Membership in the pre-scan trace splits into its three segments. -/
theorem mem_three {α : Type} (e x y : α) (l1 : List α)
    (h : e ∈ l1 ++ [x] ++ [y]) :
    e ∈ l1 ∨ e = x ∨ e = y := by
  simp only [List.mem_append, List.mem_singleton] at h
  tauto

/-- Membership in a trace with one appended event splits off that event. -/
theorem mem_snoc {α : Type} (e x : α) (l1 : List α)
    (h : e ∈ l1 ++ [x]) :
    e ∈ l1 ∨ e = x := by
  simp only [List.mem_append, List.mem_singleton] at h
  tauto

/-- Any proposed change satisfying the review-loop skip condition (a
`modify` whose rendered diff is empty) is never prompted for and never
passed to `applyFileChange` anywhere in the run. -/
theorem run_skip_condition_unobserved (env : GenerateEnv)
    (prompt projectRoot : String) (allScanPaths : List String)
    (opts0 : GenerateOptions) (scannedFiles : List ScannedFile)
    (llmOutput : LLMOutput) (i : Nat) (ch : ProposedFileChange)
    (hscan : env.scanResult = .ok scannedFiles)
    (hllm : env.llmResult = .ok llmOutput)
    (hch : llmOutput.changes[i]? = some ch)
    (hcond : (ch.action == "modify" &&
      generateUnifiedDiff (((originalFileContentsOf scannedFiles).lookup ch.filePath).getD "")
        (ch.newContent.getD "") == "") = true) :
    (∀ p a, Event.promptDecision i p a ∉
      (runGenerate env prompt projectRoot allScanPaths opts0).1) ∧
    (∀ q c, Event.applyCall i q c ∉
      (runGenerate env prompt projectRoot allScanPaths opts0).1) := by
  rcases runGenerate_cases env prompt projectRoot allScanPaths opts0 with
    ⟨tr0, e, hpre, hrun⟩ |
    ⟨tr0, g, hpre,
      ⟨e, hscan1, hrun⟩ |
      ⟨files, hscan1,
        ⟨e, hllm1, hrun⟩ |
        ⟨out, hllm1,
          ⟨hemp, hrun⟩ |
          ⟨trR, hemp, hrev, hrun⟩ |
          ⟨trR, st, hemp, hrev, hcta, hrun⟩ |
          ⟨trR, st, hemp, hrev, hcta, hrun⟩⟩⟩⟩
  · constructor
    · intro p a
      rw [hrun]
      exact preflight_fst_no_decision_prompt env prompt opts0.yes opts0.noGit opts0.branch
        opts0 tr0 _ hpre i p a
    · intro q c
      rw [hrun]
      exact preflight_fst_no_applyCall env prompt opts0.yes opts0.noGit opts0.branch
        opts0 tr0 _ hpre i q c
  · rw [hscan] at hscan1
    simp at hscan1
  · rw [hscan] at hscan1
    injection hscan1 with he
    subst he
    rw [hllm] at hllm1
    simp at hllm1
  · rw [hscan] at hscan1
    injection hscan1 with he
    subst he
    rw [hllm] at hllm1
    injection hllm1 with he2
    subst he2
    rw [List.isEmpty_iff.1 hemp] at hch
    simp at hch
  all_goals
    rw [hscan] at hscan1
  all_goals
    injection hscan1 with he
  all_goals
    subst he
  all_goals
    rw [hllm] at hllm1
  all_goals
    injection hllm1 with he2
  all_goals
    subst he2
  all_goals
    have hss := reviewPhase_skip_spec env opts0.yes (originalFileContentsOf scannedFiles)
      llmOutput.changes trR _ i ch hrev hch hcond
  · rcases abortOutcome_cases env g
      (tr0 ++ [Event.scanCall allScanPaths projectRoot] ++ [Event.llmCall] ++ trR)
      .aborted with hAO | ⟨hg, hc, hAO⟩ | ⟨m, hg, hc, hAO⟩ <;>
      rw [hrun, hAO] <;> constructor
    · intro p a h
      rcases mem_four _ _ _ _ _ h with h1 | h1 | h1 | h1
      · exact preflight_fst_no_decision_prompt env prompt opts0.yes opts0.noGit
          opts0.branch opts0 tr0 _ hpre i p a h1
      · simp at h1
      · simp at h1
      · exact hss.1 p a h1
    · intro q c h
      rcases mem_four _ _ _ _ _ h with h1 | h1 | h1 | h1
      · exact preflight_fst_no_applyCall env prompt opts0.yes opts0.noGit
          opts0.branch opts0 tr0 _ hpre i q c h1
      · simp at h1
      · simp at h1
      · exact reviewPhase_no_applyCall env opts0.yes (originalFileContentsOf scannedFiles)
          llmOutput.changes trR _ hrev i q c h1
    · intro p a h
      rcases mem_snoc _ _ _ h with h1 | h1
      · rcases mem_four _ _ _ _ _ h1 with h2 | h2 | h2 | h2
        · exact preflight_fst_no_decision_prompt env prompt opts0.yes opts0.noGit
            opts0.branch opts0 tr0 _ hpre i p a h2
        · simp at h2
        · simp at h2
        · exact hss.1 p a h2
      · simp at h1
    · intro q c h
      rcases mem_snoc _ _ _ h with h1 | h1
      · rcases mem_four _ _ _ _ _ h1 with h2 | h2 | h2 | h2
        · exact preflight_fst_no_applyCall env prompt opts0.yes opts0.noGit
            opts0.branch opts0 tr0 _ hpre i q c h2
        · simp at h2
        · simp at h2
        · exact reviewPhase_no_applyCall env opts0.yes (originalFileContentsOf scannedFiles)
            llmOutput.changes trR _ hrev i q c h2
      · simp at h1
    · intro p a h
      rcases mem_snoc _ _ _ h with h1 | h1
      · rcases mem_four _ _ _ _ _ h1 with h2 | h2 | h2 | h2
        · exact preflight_fst_no_decision_prompt env prompt opts0.yes opts0.noGit
            opts0.branch opts0 tr0 _ hpre i p a h2
        · simp at h2
        · simp at h2
        · exact hss.1 p a h2
      · simp at h1
    · intro q c h
      rcases mem_snoc _ _ _ h with h1 | h1
      · rcases mem_four _ _ _ _ _ h1 with h2 | h2 | h2 | h2
        · exact preflight_fst_no_applyCall env prompt opts0.yes opts0.noGit
            opts0.branch opts0 tr0 _ hpre i q c h2
        · simp at h2
        · simp at h2
        · exact reviewPhase_no_applyCall env opts0.yes (originalFileContentsOf scannedFiles)
            llmOutput.changes trR _ hrev i q c h2
      · simp at h1
  · rcases abortOutcome_cases env g
      (tr0 ++ [Event.scanCall allScanPaths projectRoot] ++ [Event.llmCall] ++ trR)
      .noneConfirmed with hAO | ⟨hg, hc, hAO⟩ | ⟨m, hg, hc, hAO⟩ <;>
      rw [hrun, hAO] <;> constructor
    · intro p a h
      rcases mem_four _ _ _ _ _ h with h1 | h1 | h1 | h1
      · exact preflight_fst_no_decision_prompt env prompt opts0.yes opts0.noGit
          opts0.branch opts0 tr0 _ hpre i p a h1
      · simp at h1
      · simp at h1
      · exact hss.1 p a h1
    · intro q c h
      rcases mem_four _ _ _ _ _ h with h1 | h1 | h1 | h1
      · exact preflight_fst_no_applyCall env prompt opts0.yes opts0.noGit
          opts0.branch opts0 tr0 _ hpre i q c h1
      · simp at h1
      · simp at h1
      · exact reviewPhase_no_applyCall env opts0.yes (originalFileContentsOf scannedFiles)
          llmOutput.changes trR _ hrev i q c h1
    · intro p a h
      rcases mem_snoc _ _ _ h with h1 | h1
      · rcases mem_four _ _ _ _ _ h1 with h2 | h2 | h2 | h2
        · exact preflight_fst_no_decision_prompt env prompt opts0.yes opts0.noGit
            opts0.branch opts0 tr0 _ hpre i p a h2
        · simp at h2
        · simp at h2
        · exact hss.1 p a h2
      · simp at h1
    · intro q c h
      rcases mem_snoc _ _ _ h with h1 | h1
      · rcases mem_four _ _ _ _ _ h1 with h2 | h2 | h2 | h2
        · exact preflight_fst_no_applyCall env prompt opts0.yes opts0.noGit
            opts0.branch opts0 tr0 _ hpre i q c h2
        · simp at h2
        · simp at h2
        · exact reviewPhase_no_applyCall env opts0.yes (originalFileContentsOf scannedFiles)
            llmOutput.changes trR _ hrev i q c h2
      · simp at h1
    · intro p a h
      rcases mem_snoc _ _ _ h with h1 | h1
      · rcases mem_four _ _ _ _ _ h1 with h2 | h2 | h2 | h2
        · exact preflight_fst_no_decision_prompt env prompt opts0.yes opts0.noGit
            opts0.branch opts0 tr0 _ hpre i p a h2
        · simp at h2
        · simp at h2
        · exact hss.1 p a h2
      · simp at h1
    · intro q c h
      rcases mem_snoc _ _ _ h with h1 | h1
      · rcases mem_four _ _ _ _ _ h1 with h2 | h2 | h2 | h2
        · exact preflight_fst_no_applyCall env prompt opts0.yes opts0.noGit
            opts0.branch opts0 tr0 _ hpre i q c h2
        · simp at h2
        · simp at h2
        · exact reviewPhase_no_applyCall env opts0.yes (originalFileContentsOf scannedFiles)
            llmOutput.changes trR _ hrev i q c h2
      · simp at h1
  · rcases applyAndStage_trace env projectRoot g
      (tr0 ++ [Event.scanCall allScanPaths projectRoot] ++ [Event.llmCall] ++ trR) st with
      hAS | hAS <;> rw [hrun, hAS] <;> constructor
    · intro p a h
      rcases List.mem_append.1 h with h1 | h1
      · rcases mem_four _ _ _ _ _ h1 with h2 | h2 | h2 | h2
        · exact preflight_fst_no_decision_prompt env prompt opts0.yes opts0.noGit
            opts0.branch opts0 tr0 _ hpre i p a h2
        · simp at h2
        · simp at h2
        · exact hss.1 p a h2
      · exact applyLoop_no_decision_prompt env projectRoot st.changesToApply 0 i p a h1
    · intro q c h
      rcases List.mem_append.1 h with h1 | h1
      · rcases mem_four _ _ _ _ _ h1 with h2 | h2 | h2 | h2
        · exact preflight_fst_no_applyCall env prompt opts0.yes opts0.noGit
            opts0.branch opts0 tr0 _ hpre i q c h2
        · simp at h2
        · simp at h2
        · exact reviewPhase_no_applyCall env opts0.yes (originalFileContentsOf scannedFiles)
            llmOutput.changes trR _ hrev i q c h2
      · rcases applyLoop_applyCall_mem env projectRoot st.changesToApply 0 i q c h1 with
          ⟨ch2, hmem, hq, hcall⟩
        exact hss.2 st ch2 rfl hmem
    · intro p a h
      rcases mem_snoc _ _ _ h with h0 | h0
      · rcases List.mem_append.1 h0 with h1 | h1
        · rcases mem_four _ _ _ _ _ h1 with h2 | h2 | h2 | h2
          · exact preflight_fst_no_decision_prompt env prompt opts0.yes opts0.noGit
              opts0.branch opts0 tr0 _ hpre i p a h2
          · simp at h2
          · simp at h2
          · exact hss.1 p a h2
        · exact applyLoop_no_decision_prompt env projectRoot st.changesToApply 0 i p a h1
      · simp at h0
    · intro q c h
      rcases mem_snoc _ _ _ h with h0 | h0
      · rcases List.mem_append.1 h0 with h1 | h1
        · rcases mem_four _ _ _ _ _ h1 with h2 | h2 | h2 | h2
          · exact preflight_fst_no_applyCall env prompt opts0.yes opts0.noGit
              opts0.branch opts0 tr0 _ hpre i q c h2
          · simp at h2
          · simp at h2
          · exact reviewPhase_no_applyCall env opts0.yes (originalFileContentsOf scannedFiles)
              llmOutput.changes trR _ hrev i q c h2
        · rcases applyLoop_applyCall_mem env projectRoot st.changesToApply 0 i q c h1 with
            ⟨ch2, hmem, hq, hcall⟩
          exact hss.2 st ch2 rfl hmem
      · simp at h0

/-- C4: a `modify` change whose `newContent` is byte-identical to the
captured original content of its path renders an empty diff, never reaches
the decision prompt, and is never passed to `applyFileChange`, regardless of
the auto-confirm flag and of every collaborator response. -/
theorem c4_noop_modify_never_reviewed_or_applied (env : GenerateEnv)
    (prompt projectRoot : String) (allScanPaths : List String)
    (opts0 : GenerateOptions) (scannedFiles : List ScannedFile)
    (llmOutput : LLMOutput) (i : Nat) (ch : ProposedFileChange) (orig : String)
    (hscan : env.scanResult = .ok scannedFiles)
    (hllm : env.llmResult = .ok llmOutput)
    (hch : llmOutput.changes[i]? = some ch)
    (hmod : ch.action = "modify")
    (hcap : (originalFileContentsOf scannedFiles).lookup ch.filePath = some orig)
    (hid : ch.newContent = some orig) :
    generateUnifiedDiff (((originalFileContentsOf scannedFiles).lookup ch.filePath).getD "")
        (ch.newContent.getD "") = "" ∧
    (∀ p a, Event.promptDecision i p a ∉
      (runGenerate env prompt projectRoot allScanPaths opts0).1) ∧
    (∀ q c, Event.applyCall i q c ∉
      (runGenerate env prompt projectRoot allScanPaths opts0).1) := by
  have hdiff : generateUnifiedDiff
      (((originalFileContentsOf scannedFiles).lookup ch.filePath).getD "")
      (ch.newContent.getD "") = "" := by
    rw [hcap, hid]
    exact generateUnifiedDiff_self orig
  refine ⟨hdiff, run_skip_condition_unobserved env prompt projectRoot allScanPaths opts0
    scannedFiles llmOutput i ch hscan hllm hch ?_⟩
  rw [hmod, hdiff]
  rfl

/-- Environment of a run whose single proposed change is a `modify` with
content identical to the scanned original. -/
def envNoopModify : GenerateEnv where
  isGitRepo := false
  currentBranch := none
  proceedGit := true
  branchNameInput := ""
  createBranchResult := .ok ()
  scanResult := .ok [{ filePath := "/r/a.ts", relativePath := "a.ts", content := "same" }]
  llmResult := .ok
    { changes :=
        [{ filePath := "/r/a.ts", action := "modify", newContent := some "same", reason := none }]
      summary := "noop"
      thoughtProcess := none }
  decisions := fun _ => .yes
  applyResults := fun _ => .ok ()
  checkoutResult := .ok ()
  stageResult := .ok ()

/-- C4 witness: in the concrete run with an identical-content `modify`, the
change is never prompted for. -/
theorem c4_witness :
    Event.promptDecision 0 "/r/a.ts" .yes ∉
      (runGenerate envNoopModify "p" "/r" ["."] ⟨false, true, none⟩).1 :=
  (c4_noop_modify_never_reviewed_or_applied envNoopModify "p" "/r" ["."] ⟨false, true, none⟩
    [{ filePath := "/r/a.ts", relativePath := "a.ts", content := "same" }]
    { changes :=
        [{ filePath := "/r/a.ts", action := "modify", newContent := some "same", reason := none }]
      summary := "noop"
      thoughtProcess := none }
    0 { filePath := "/r/a.ts", action := "modify", newContent := some "same", reason := none }
    "same" rfl rfl (by decide) rfl (by decide) rfl).2.1 "/r/a.ts" .yes

/-- C10: a `modify` change whose path is absent from the scan results is
diffed against the empty string: the captured original defaults to `""`, a
non-empty `newContent` comes back from the diff model as a single hunk
marked added carrying the whole content, and a change with empty
`newContent` is classified a no-op and silently skipped: it is never
prompted for and never passed to `applyFileChange`. -/
theorem c10_unscanned_modify_diffs_against_empty (env : GenerateEnv)
    (prompt projectRoot : String) (allScanPaths : List String)
    (opts0 : GenerateOptions) (scannedFiles : List ScannedFile)
    (llmOutput : LLMOutput) (i : Nat) (ch : ProposedFileChange)
    (hscan : env.scanResult = .ok scannedFiles)
    (hllm : env.llmResult = .ok llmOutput)
    (hch : llmOutput.changes[i]? = some ch)
    (hmod : ch.action = "modify")
    (habsent : (originalFileContentsOf scannedFiles).lookup ch.filePath = none) :
    ((originalFileContentsOf scannedFiles).lookup ch.filePath).getD "" = "" ∧
    (∀ c, ch.newContent = some c → c ≠ "" → diffLines "" c = [⟨c, true, false⟩]) ∧
    (ch.newContent.getD "" = "" →
      (∀ p a, Event.promptDecision i p a ∉
        (runGenerate env prompt projectRoot allScanPaths opts0).1) ∧
      (∀ q c, Event.applyCall i q c ∉
        (runGenerate env prompt projectRoot allScanPaths opts0).1)) := by
  refine ⟨by rw [habsent]; rfl, ?_, ?_⟩
  · intro c hc hne
    exact diffLines_empty_original c hne
  · intro hempty
    refine run_skip_condition_unobserved env prompt projectRoot allScanPaths opts0
      scannedFiles llmOutput i ch hscan hllm hch ?_
    rw [hmod, habsent, hempty]
    rfl

/-- Environment of a run whose single proposed change is a `modify` of a
path absent from the scan results, with empty new content. -/
def envGhostModify : GenerateEnv where
  isGitRepo := false
  currentBranch := none
  proceedGit := true
  branchNameInput := ""
  createBranchResult := .ok ()
  scanResult := .ok []
  llmResult := .ok
    { changes :=
        [{ filePath := "ghost.ts", action := "modify", newContent := some "", reason := none }]
      summary := "ghost"
      thoughtProcess := none }
  decisions := fun _ => .yes
  applyResults := fun _ => .ok ()
  checkoutResult := .ok ()
  stageResult := .ok ()

/-- C10 witness: in the concrete run modifying an unscanned path with empty
content, the change is never prompted for. -/
theorem c10_witness :
    Event.promptDecision 0 "ghost.ts" .yes ∉
      (runGenerate envGhostModify "p" "/r" ["."] ⟨false, true, none⟩).1 :=
  ((c10_unscanned_modify_diffs_against_empty envGhostModify "p" "/r" ["."] ⟨false, true, none⟩
    []
    { changes :=
        [{ filePath := "ghost.ts", action := "modify", newContent := some "", reason := none }]
      summary := "ghost"
      thoughtProcess := none }
    0 { filePath := "ghost.ts", action := "modify", newContent := some "", reason := none }
    rfl rfl (by decide) rfl rfl).2.2 rfl).1 "ghost.ts" .yes

/-- C5 amended: every staging call of a run carries exactly the
`filesModifiedOrAdded` list of the completed review phase — the ordered
paths of all confirmed changes — regardless of whether each path's apply
call succeeded or failed. -/
theorem c5_amended_staged_paths_are_confirmed (env : GenerateEnv)
    (prompt projectRoot : String) (allScanPaths : List String)
    (opts0 : GenerateOptions) (fs : List String)
    (h : Event.stageCall fs ∈ (runGenerate env prompt projectRoot allScanPaths opts0).1) :
    fs = runConfirmedPaths env opts0.yes := by
  rcases runGenerate_cases env prompt projectRoot allScanPaths opts0 with
    ⟨tr0, e, hpre, hrun⟩ |
    ⟨tr0, g, hpre,
      ⟨e, hscan1, hrun⟩ |
      ⟨files, hscan1,
        ⟨e, hllm1, hrun⟩ |
        ⟨out, hllm1,
          ⟨hemp, hrun⟩ |
          ⟨trR, hemp, hrev, hrun⟩ |
          ⟨trR, st, hemp, hrev, hcta, hrun⟩ |
          ⟨trR, st, hemp, hrev, hcta, hrun⟩⟩⟩⟩
  · rw [hrun] at h
    exact absurd h (preflight_fst_no_stageCall env prompt opts0.yes opts0.noGit opts0.branch
      opts0 tr0 _ hpre fs)
  · rw [hrun] at h
    rcases mem_snoc _ _ _ h with h1 | h1
    · exact absurd h1 (preflight_fst_no_stageCall env prompt opts0.yes opts0.noGit
        opts0.branch opts0 tr0 _ hpre fs)
    · simp at h1
  · rw [hrun] at h
    rcases mem_three _ _ _ _ h with h1 | h1 | h1
    · exact absurd h1 (preflight_fst_no_stageCall env prompt opts0.yes opts0.noGit
        opts0.branch opts0 tr0 _ hpre fs)
    · simp at h1
    · simp at h1
  · rw [hrun] at h
    rcases mem_three _ _ _ _ h with h1 | h1 | h1
    · exact absurd h1 (preflight_fst_no_stageCall env prompt opts0.yes opts0.noGit
        opts0.branch opts0 tr0 _ hpre fs)
    · simp at h1
    · simp at h1
  · rcases abortOutcome_cases env g
      (tr0 ++ [Event.scanCall allScanPaths projectRoot] ++ [Event.llmCall] ++ trR)
      .aborted with hAO | ⟨hg, hc, hAO⟩ | ⟨m, hg, hc, hAO⟩ <;> rw [hrun, hAO] at h
    · rcases mem_four _ _ _ _ _ h with h1 | h1 | h1 | h1
      · exact absurd h1 (preflight_fst_no_stageCall env prompt opts0.yes opts0.noGit
          opts0.branch opts0 tr0 _ hpre fs)
      · simp at h1
      · simp at h1
      · exact absurd h1 (reviewPhase_no_stageCall env opts0.yes
          (originalFileContentsOf files) out.changes trR _ hrev fs)
    all_goals (
      rcases mem_snoc _ _ _ h with h0 | h0
      · rcases mem_four _ _ _ _ _ h0 with h1 | h1 | h1 | h1
        · exact absurd h1 (preflight_fst_no_stageCall env prompt opts0.yes opts0.noGit
            opts0.branch opts0 tr0 _ hpre fs)
        · simp at h1
        · simp at h1
        · exact absurd h1 (reviewPhase_no_stageCall env opts0.yes
            (originalFileContentsOf files) out.changes trR _ hrev fs)
      · simp at h0)
  · rcases abortOutcome_cases env g
      (tr0 ++ [Event.scanCall allScanPaths projectRoot] ++ [Event.llmCall] ++ trR)
      .noneConfirmed with hAO | ⟨hg, hc, hAO⟩ | ⟨m, hg, hc, hAO⟩ <;> rw [hrun, hAO] at h
    · rcases mem_four _ _ _ _ _ h with h1 | h1 | h1 | h1
      · exact absurd h1 (preflight_fst_no_stageCall env prompt opts0.yes opts0.noGit
          opts0.branch opts0 tr0 _ hpre fs)
      · simp at h1
      · simp at h1
      · exact absurd h1 (reviewPhase_no_stageCall env opts0.yes
          (originalFileContentsOf files) out.changes trR _ hrev fs)
    all_goals (
      rcases mem_snoc _ _ _ h with h0 | h0
      · rcases mem_four _ _ _ _ _ h0 with h1 | h1 | h1 | h1
        · exact absurd h1 (preflight_fst_no_stageCall env prompt opts0.yes opts0.noGit
            opts0.branch opts0 tr0 _ hpre fs)
        · simp at h1
        · simp at h1
        · exact absurd h1 (reviewPhase_no_stageCall env opts0.yes
            (originalFileContentsOf files) out.changes trR _ hrev fs)
      · simp at h0)
  · rw [hrun] at h
    rcases applyAndStage_stage_mem env projectRoot g
      (tr0 ++ [Event.scanCall allScanPaths projectRoot] ++ [Event.llmCall] ++ trR) st fs h with
      h1 | h1
    · rcases mem_four _ _ _ _ _ h1 with h2 | h2 | h2 | h2
      · exact absurd h2 (preflight_fst_no_stageCall env prompt opts0.yes opts0.noGit
          opts0.branch opts0 tr0 _ hpre fs)
      · simp at h2
      · simp at h2
      · exact absurd h2 (reviewPhase_no_stageCall env opts0.yes
          (originalFileContentsOf files) out.changes trR _ hrev fs)
    · rw [h1]
      simp [runConfirmedPaths, hscan1, hllm1, hrev]

/-- Environment of an auto-confirmed run on a Git repository whose single
confirmed `add` change fails to apply (the backend mutation call errors). -/
def envFailedApplyStaged : GenerateEnv where
  isGitRepo := true
  currentBranch := some "main"
  proceedGit := true
  branchNameInput := ""
  createBranchResult := .ok ()
  scanResult := .ok []
  llmResult := .ok
    { changes := [{ filePath := "a.ts", action := "add", newContent := some "x", reason := none }]
      summary := "one add"
      thoughtProcess := none }
  decisions := fun _ => .yes
  applyResults := fun _ => .error "disk full"
  checkoutResult := .ok ()
  stageResult := .ok ()

/-- C5 counterexample: the apply call for `a.ts` fails, its failure is
reported, and the path is nevertheless passed to the staging call — staging
is driven by the confirmed list, not by apply success. -/
theorem c5_counterexample :
    Event.applyFailureReport "a.ts" "disk full" ∈
      (runGenerate envFailedApplyStaged "p" "/r" ["."] ⟨true, false, none⟩).1 ∧
    Event.stageCall ["a.ts"] ∈
      (runGenerate envFailedApplyStaged "p" "/r" ["."] ⟨true, false, none⟩).1 := by
  decide

/-- C5 witness: the amended statement applied to the concrete failed-apply
run: the staged list is exactly the confirmed list. -/
theorem c5_witness :
    (["a.ts"] : List String) = runConfirmedPaths envFailedApplyStaged true :=
  c5_amended_staged_paths_are_confirmed envFailedApplyStaged "p" "/r" ["."]
    ⟨true, false, none⟩ ["a.ts"] (by decide)

/-- C6 amended: when the user aborts, the checkout of the original branch is
attempted where the revert guard holds, but a checkout failure is not
swallowed: it escalates to the catch-all handler and the run terminates as
`failed` with the checkout error, not as `aborted`. -/
theorem c6_amended_abort_revert_failure_escalates (env : GenerateEnv)
    (prompt projectRoot : String) (allScanPaths : List String)
    (opts0 : GenerateOptions) (i : Nat) (p b m : String)
    (h1 : Event.promptDecision i p .abort ∈
      (runGenerate env prompt projectRoot allScanPaths opts0).1)
    (h2 : Event.checkoutCall b ∈
      (runGenerate env prompt projectRoot allScanPaths opts0).1)
    (h3 : env.checkoutResult = .error m) :
    (runGenerate env prompt projectRoot allScanPaths opts0).2 = .failed m := by
  rcases runGenerate_cases env prompt projectRoot allScanPaths opts0 with
    ⟨tr0, e, hpre, hrun⟩ |
    ⟨tr0, g, hpre,
      ⟨e, hscan1, hrun⟩ |
      ⟨files, hscan1,
        ⟨e, hllm1, hrun⟩ |
        ⟨out, hllm1,
          ⟨hemp, hrun⟩ |
          ⟨trR, hemp, hrev, hrun⟩ |
          ⟨trR, st, hemp, hrev, hcta, hrun⟩ |
          ⟨trR, st, hemp, hrev, hcta, hrun⟩⟩⟩⟩
  · rw [hrun] at h1
    exact absurd h1 (preflight_fst_no_decision_prompt env prompt opts0.yes opts0.noGit
      opts0.branch opts0 tr0 _ hpre i p .abort)
  · rw [hrun] at h1
    rcases mem_snoc _ _ _ h1 with hx | hx
    · exact absurd hx (preflight_fst_no_decision_prompt env prompt opts0.yes opts0.noGit
        opts0.branch opts0 tr0 _ hpre i p .abort)
    · simp at hx
  · rw [hrun] at h1
    rcases mem_three _ _ _ _ h1 with hx | hx | hx
    · exact absurd hx (preflight_fst_no_decision_prompt env prompt opts0.yes opts0.noGit
        opts0.branch opts0 tr0 _ hpre i p .abort)
    · simp at hx
    · simp at hx
  · rw [hrun] at h1
    rcases mem_three _ _ _ _ h1 with hx | hx | hx
    · exact absurd hx (preflight_fst_no_decision_prompt env prompt opts0.yes opts0.noGit
        opts0.branch opts0 tr0 _ hpre i p .abort)
    · simp at hx
    · simp at hx
  · rcases abortOutcome_cases env g
      (tr0 ++ [Event.scanCall allScanPaths projectRoot] ++ [Event.llmCall] ++ trR)
      .aborted with hAO | ⟨hg, hc, hAO⟩ | ⟨m2, hg, hc, hAO⟩
    · rw [hrun, hAO] at h2
      rcases mem_four _ _ _ _ _ h2 with hx | hx | hx | hx
      · exact absurd hx (preflight_fst_no_checkoutCall env prompt opts0.yes opts0.noGit
          opts0.branch opts0 tr0 _ hpre b)
      · simp at hx
      · simp at hx
      · exact absurd hx (reviewPhase_no_checkoutCall env opts0.yes
          (originalFileContentsOf files) out.changes trR _ hrev b)
    · rw [h3] at hc
      simp at hc
    · rw [h3] at hc
      injection hc with hm
      subst hm
      rw [hrun, hAO]
  · rcases abortOutcome_cases env g
      (tr0 ++ [Event.scanCall allScanPaths projectRoot] ++ [Event.llmCall] ++ trR)
      .noneConfirmed with hAO | ⟨hg, hc, hAO⟩ | ⟨m2, hg, hc, hAO⟩ <;> rw [hrun, hAO] at h1
    · rcases mem_four _ _ _ _ _ h1 with hx | hx | hx | hx
      · exact absurd hx (preflight_fst_no_decision_prompt env prompt opts0.yes opts0.noGit
          opts0.branch opts0 tr0 _ hpre i p .abort)
      · simp at hx
      · simp at hx
      · exact absurd hx (reviewPhase_finished_no_abort env opts0.yes
          (originalFileContentsOf files) out.changes trR st hrev i p)
    all_goals (
      rcases mem_snoc _ _ _ h1 with h0 | h0
      · rcases mem_four _ _ _ _ _ h0 with hx | hx | hx | hx
        · exact absurd hx (preflight_fst_no_decision_prompt env prompt opts0.yes opts0.noGit
            opts0.branch opts0 tr0 _ hpre i p .abort)
        · simp at hx
        · simp at hx
        · exact absurd hx (reviewPhase_finished_no_abort env opts0.yes
            (originalFileContentsOf files) out.changes trR st hrev i p)
      · simp at h0)
  · rw [hrun] at h1
    rcases applyAndStage_trace env projectRoot g
      (tr0 ++ [Event.scanCall allScanPaths projectRoot] ++ [Event.llmCall] ++ trR) st with
      hAS | hAS <;> rw [hAS] at h1
    · rcases List.mem_append.1 h1 with hx | hx
      · rcases mem_four _ _ _ _ _ hx with hy | hy | hy | hy
        · exact absurd hy (preflight_fst_no_decision_prompt env prompt opts0.yes opts0.noGit
            opts0.branch opts0 tr0 _ hpre i p .abort)
        · simp at hy
        · simp at hy
        · exact absurd hy (reviewPhase_finished_no_abort env opts0.yes
            (originalFileContentsOf files) out.changes trR st hrev i p)
      · exact absurd hx (applyLoop_no_decision_prompt env projectRoot st.changesToApply 0
          i p .abort)
    · rcases mem_snoc _ _ _ h1 with h0 | h0
      · rcases List.mem_append.1 h0 with hx | hx
        · rcases mem_four _ _ _ _ _ hx with hy | hy | hy | hy
          · exact absurd hy (preflight_fst_no_decision_prompt env prompt opts0.yes opts0.noGit
              opts0.branch opts0 tr0 _ hpre i p .abort)
          · simp at hy
          · simp at hy
          · exact absurd hy (reviewPhase_finished_no_abort env opts0.yes
              (originalFileContentsOf files) out.changes trR st hrev i p)
        · exact absurd hx (applyLoop_no_decision_prompt env projectRoot st.changesToApply 0
            i p .abort)
      · simp at h0

/-- Environment of an interactive run on a Git repository where a working
branch is created, the first decision prompt is answered `abort`, and the
revert checkout of the original branch throws. -/
def envAbortRevertFail : GenerateEnv where
  isGitRepo := true
  currentBranch := some "main"
  proceedGit := true
  branchNameInput := "feat-x"
  createBranchResult := .ok ()
  scanResult := .ok []
  llmResult := .ok
    { changes := [{ filePath := "a.ts", action := "add", newContent := some "x", reason := none }]
      summary := "one add"
      thoughtProcess := none }
  decisions := fun _ => .abort
  applyResults := fun _ => .ok ()
  checkoutResult := .error "checkout boom"
  stageResult := .ok ()

/-- C6 counterexample: on abort, the failed revert checkout escalates: the
run terminates as `failed` with the checkout error, not as `aborted`, even
though the checkout was attempted. -/
theorem c6_counterexample :
    (runGenerate envAbortRevertFail "p" "/r" ["."] ⟨false, false, none⟩).2 =
      .failed "checkout boom" ∧
    (runGenerate envAbortRevertFail "p" "/r" ["."] ⟨false, false, none⟩).2 ≠ .aborted ∧
    Event.checkoutCall "main" ∈
      (runGenerate envAbortRevertFail "p" "/r" ["."] ⟨false, false, none⟩).1 := by
  decide

/-- C6 witness: the amended statement applied to the concrete
failing-revert run. -/
theorem c6_witness :
    (runGenerate envAbortRevertFail "p" "/r" ["."] ⟨false, false, none⟩).2 =
      .failed "checkout boom" :=
  c6_amended_abort_revert_failure_escalates envAbortRevertFail "p" "/r" ["."]
    ⟨false, false, none⟩ 0 "a.ts" "main" "checkout boom" (by decide) (by decide) rfl

/-- Environment of an interactive run with two proposed `add` changes where
every decision prompt is answered `Apply All`. -/
def envApplyAll : GenerateEnv where
  isGitRepo := false
  currentBranch := none
  proceedGit := true
  branchNameInput := ""
  createBranchResult := .ok ()
  scanResult := .ok []
  llmResult := .ok
    { changes :=
        [{ filePath := "a.ts", action := "add", newContent := some "x", reason := none },
         { filePath := "b.ts", action := "add", newContent := some "y", reason := none }]
      summary := "two adds"
      thoughtProcess := none }
  decisions := fun _ => .all
  applyResults := fun _ => .ok ()
  checkoutResult := .ok ()
  stageResult := .ok ()

/-- C1: answering `Apply All` at the first change does not suppress the
prompt for the second change.  The loop tests the constant `autoConfirm`
captured before the loop (line 429 of `src/index.ts`) while the `all` answer
mutates `options.yes` (line 454), a dead store: the run below shows two
decision prompts, the second change being prompted (and answered `all`)
again, contradicting the `Apply All (apply this and all subsequent changes)`
choice text and the specified mode-switch semantics. -/
theorem c1_apply_all_reprompts :
    ((runGenerate envApplyAll "p" "/r" ["."] ⟨false, true, none⟩).1.countP
      isDecisionPrompt) = 2 ∧
    Event.promptDecision 1 "b.ts" .all ∈
      (runGenerate envApplyAll "p" "/r" ["."] ⟨false, true, none⟩).1 ∧
    (runGenerate envApplyAll "p" "/r" ["."] ⟨false, true, none⟩).2 = .completed := by
  decide

/-- C7 counterexample: `applyFileChange` does not fail fast.  A change with
an unknown action is warned about and skipped (no backend call, no error),
and an `add` with missing `newContent` is coerced to empty-string content
rather than rejected. -/
theorem c7_counterexample :
    applyFileChange "/r"
        { filePath := "a.ts", action := "frobnicate", newContent := none, reason := none } =
      none ∧
    applyFileChange "/r"
        { filePath := "b.ts", action := "add", newContent := none, reason := none } =
      some (.createFile "/r/b.ts" false "") := by
  decide

/-- C7 amended: on dispatch, a change whose action is none of `add`,
`modify`, `delete` is skipped with a warning and no backend call; an `add`
or `modify` change missing `newContent` is not rejected but applied with the
content coerced to the empty string. -/
theorem c7_amended_dispatch_behavior (projectRoot : String)
    (change : ProposedFileChange) :
    (change.action ≠ "add" → change.action ≠ "modify" → change.action ≠ "delete" →
      applyFileChange projectRoot change = none) ∧
    (change.action = "add" → change.newContent = none →
      applyFileChange projectRoot change =
        some (.createFile (resolvePath projectRoot change.filePath) false "")) ∧
    (change.action = "modify" → change.newContent = none →
      applyFileChange projectRoot change =
        some (.writeFile (resolvePath projectRoot change.filePath) "")) := by
  refine ⟨?_, ?_, ?_⟩
  · intro h1 h2 h3
    simp [applyFileChange, h1, h2, h3]
  · intro h1 h2
    simp [applyFileChange, h1, h2]
  · intro h1 h2
    simp [applyFileChange, h1, h2]

/-- C7 witness: the amended dispatch behavior at a concrete `modify` change
missing its content. -/
theorem c7_witness :
    applyFileChange "/r"
        { filePath := "c.ts", action := "modify", newContent := none, reason := none } =
      some (.writeFile "/r/c.ts" "") :=
  (c7_amended_dispatch_behavior "/r"
    { filePath := "c.ts", action := "modify", newContent := none, reason := none }).2.2 rfl rfl

/-- C9: the default working-branch name is derived deterministically from
the prompt text exactly as the specification words it — lower-case, collapse
every maximal run of characters outside `[a-z0-9]` to a single separator,
attach the fixed `feature/` prefix, truncate to 50 characters — and the
result never exceeds 50 characters.  Determinism is immediate since
`defaultBranchSuggestion` is a pure function of the prompt. -/
theorem c9_default_branch_name_derivation (prompt : String) :
    defaultBranchSuggestion prompt = specDefaultBranchName prompt ∧
    (defaultBranchSuggestion prompt).length ≤ 50 := by
  constructor
  · unfold defaultBranchSuggestion specDefaultBranchName replaceNonSlugRuns
    rw [collapseAux_eq_squeezeAux]
  · show (List.take 50 _).length ≤ 50
    simp [List.length_take]

/-- The Git pre-check trace contains no `applyFileChange` invocation:
filtered form. -/
theorem preflight_fst_filter_applyCall (env : GenerateEnv) (prompt : String)
    (autoConfirm skipGit : Bool) (customBranchName : Option String)
    (opts0 : GenerateOptions) (tr0 : List Event) (res : Except String GitPreOut)
    (hpre : gitPreflight env prompt autoConfirm skipGit customBranchName opts0 = (tr0, res)) :
    tr0.filter isApplyCallEvt = [] := by
  rw [List.filter_eq_nil_iff]
  intro e he
  rcases preflight_fst_events env prompt autoConfirm skipGit customBranchName opts0 tr0 res
    hpre e he with h | h | h | h | ⟨b, h⟩ <;> subst h <;> simp [isApplyCallEvt]

/-- The review-phase trace contains no `applyFileChange` invocation:
filtered form. -/
theorem reviewPhase_filter_applyCall (env : GenerateEnv) (autoConfirm : Bool)
    (ofc : List (String × String)) (changes : List ProposedFileChange)
    (trR : List Event) (rres : ReviewResult)
    (hrev : reviewPhase env autoConfirm ofc changes = (trR, rres)) :
    trR.filter isApplyCallEvt = [] := by
  rw [List.filter_eq_nil_iff]
  intro e he
  rcases reviewPhase_events env autoConfirm ofc changes trR rres hrev e he with ⟨i, p, a, h⟩
  subst h
  simp [isApplyCallEvt]

/-- C8: the apply phase invokes `applyFileChange` for every confirmed change,
in received order, no matter which backend mutation calls fail: the
`applyFileChange` invocations of the whole run are exactly the confirmed
changes in order, and a failed call is reported with the affected path and
the error message without stopping the loop. -/
theorem c8_apply_phase_processes_all (env : GenerateEnv)
    (prompt projectRoot : String) (allScanPaths : List String)
    (opts0 : GenerateOptions)
    (hcb : env.createBranchResult = .ok ()) :
    (runGenerate env prompt projectRoot allScanPaths opts0).1.filter isApplyCallEvt =
      (runConfirmedChanges env opts0.yes).map
        (fun x => Event.applyCall x.1 x.2.filePath (applyFileChange projectRoot x.2)) ∧
    (∀ k idx ch m, (runConfirmedChanges env opts0.yes)[k]? = some (idx, ch) →
      env.applyResults k = .error m →
      (applyFileChange projectRoot ch).isSome = true →
      Event.applyFailureReport ch.filePath m ∈
        (runGenerate env prompt projectRoot allScanPaths opts0).1) := by
  rcases runGenerate_cases env prompt projectRoot allScanPaths opts0 with
    ⟨tr0, e, hpre, hrun⟩ |
    ⟨tr0, g, hpre,
      ⟨e, hscan1, hrun⟩ |
      ⟨files, hscan1,
        ⟨e, hllm1, hrun⟩ |
        ⟨out, hllm1,
          ⟨hemp, hrun⟩ |
          ⟨trR, hemp, hrev, hrun⟩ |
          ⟨trR, st, hemp, hrev, hcta, hrun⟩ |
          ⟨trR, st, hemp, hrev, hcta, hrun⟩⟩⟩⟩
  · have hx := gitPreflight_error env prompt opts0.yes opts0.noGit opts0.branch opts0 e
      (by rw [hpre])
    rw [hcb] at hx
    simp at hx
  · have hpre1 := preflight_fst_filter_applyCall env prompt opts0.yes opts0.noGit opts0.branch
      opts0 tr0 _ hpre
    rw [hrun]
    constructor
    · simp [List.filter_append, hpre1, isApplyCallEvt, runConfirmedChanges, hscan1]
    · intro k idx ch m hk
      simp [runConfirmedChanges, hscan1] at hk
  · have hpre1 := preflight_fst_filter_applyCall env prompt opts0.yes opts0.noGit opts0.branch
      opts0 tr0 _ hpre
    rw [hrun]
    constructor
    · simp [List.filter_append, hpre1, isApplyCallEvt, runConfirmedChanges, hscan1, hllm1]
    · intro k idx ch m hk
      simp [runConfirmedChanges, hscan1, hllm1] at hk
  · have hpre1 := preflight_fst_filter_applyCall env prompt opts0.yes opts0.noGit opts0.branch
      opts0 tr0 _ hpre
    rw [hrun]
    have hnil := List.isEmpty_iff.1 hemp
    constructor
    · simp [List.filter_append, hpre1, isApplyCallEvt, runConfirmedChanges, hscan1, hllm1,
        hnil, reviewPhase, reviewLoop]
    · intro k idx ch m hk
      simp [runConfirmedChanges, hscan1, hllm1, hnil, reviewPhase, reviewLoop] at hk
  · have hpre1 := preflight_fst_filter_applyCall env prompt opts0.yes opts0.noGit opts0.branch
      opts0 tr0 _ hpre
    have hrev1 := reviewPhase_filter_applyCall env opts0.yes (originalFileContentsOf files)
      out.changes trR _ hrev
    rcases abortOutcome_cases env g
      (tr0 ++ [Event.scanCall allScanPaths projectRoot] ++ [Event.llmCall] ++ trR)
      .aborted with hAO | ⟨hg, hc, hAO⟩ | ⟨m2, hg, hc, hAO⟩ <;> rw [hrun, hAO] <;> constructor
    · simp [List.filter_append, hpre1, hrev1, isApplyCallEvt, runConfirmedChanges,
        hscan1, hllm1, hrev]
    · intro k idx ch m hk
      simp [runConfirmedChanges, hscan1, hllm1, hrev] at hk
    · simp [List.filter_append, hpre1, hrev1, isApplyCallEvt, runConfirmedChanges,
        hscan1, hllm1, hrev]
    · intro k idx ch m hk
      simp [runConfirmedChanges, hscan1, hllm1, hrev] at hk
    · simp [List.filter_append, hpre1, hrev1, isApplyCallEvt, runConfirmedChanges,
        hscan1, hllm1, hrev]
    · intro k idx ch m hk
      simp [runConfirmedChanges, hscan1, hllm1, hrev] at hk
  · have hpre1 := preflight_fst_filter_applyCall env prompt opts0.yes opts0.noGit opts0.branch
      opts0 tr0 _ hpre
    have hrev1 := reviewPhase_filter_applyCall env opts0.yes (originalFileContentsOf files)
      out.changes trR _ hrev
    have hnil := List.isEmpty_iff.1 hcta
    rcases abortOutcome_cases env g
      (tr0 ++ [Event.scanCall allScanPaths projectRoot] ++ [Event.llmCall] ++ trR)
      .noneConfirmed with hAO | ⟨hg, hc, hAO⟩ | ⟨m2, hg, hc, hAO⟩ <;> rw [hrun, hAO] <;>
      constructor
    · simp [List.filter_append, hpre1, hrev1, isApplyCallEvt, runConfirmedChanges,
        hscan1, hllm1, hrev, hnil]
    · intro k idx ch m hk
      simp [runConfirmedChanges, hscan1, hllm1, hrev, hnil] at hk
    · simp [List.filter_append, hpre1, hrev1, isApplyCallEvt, runConfirmedChanges,
        hscan1, hllm1, hrev, hnil]
    · intro k idx ch m hk
      simp [runConfirmedChanges, hscan1, hllm1, hrev, hnil] at hk
    · simp [List.filter_append, hpre1, hrev1, isApplyCallEvt, runConfirmedChanges,
        hscan1, hllm1, hrev, hnil]
    · intro k idx ch m hk
      simp [runConfirmedChanges, hscan1, hllm1, hrev, hnil] at hk
  · have hpre1 := preflight_fst_filter_applyCall env prompt opts0.yes opts0.noGit opts0.branch
      opts0 tr0 _ hpre
    have hrev1 := reviewPhase_filter_applyCall env opts0.yes (originalFileContentsOf files)
      out.changes trR _ hrev
    have hAL := applyLoop_filter env projectRoot st.changesToApply 0
    rcases applyAndStage_trace env projectRoot g
      (tr0 ++ [Event.scanCall allScanPaths projectRoot] ++ [Event.llmCall] ++ trR) st with
      hAS | hAS <;> rw [hrun, hAS] <;> constructor
    · simp [List.filter_append, hpre1, hrev1, hAL, isApplyCallEvt, runConfirmedChanges,
        hscan1, hllm1, hrev]
    · intro k idx ch m hk har hsome
      rw [show runConfirmedChanges env opts0.yes = st.changesToApply from by
        simp [runConfirmedChanges, hscan1, hllm1, hrev]] at hk
      have hmem := applyLoop_failure_mem env projectRoot st.changesToApply 0 k idx ch m hk
        (by rw [Nat.zero_add]; exact har) hsome
      exact List.mem_append.2 (Or.inr hmem)
    · simp [List.filter_append, hpre1, hrev1, hAL, isApplyCallEvt, runConfirmedChanges,
        hscan1, hllm1, hrev]
    · intro k idx ch m hk har hsome
      rw [show runConfirmedChanges env opts0.yes = st.changesToApply from by
        simp [runConfirmedChanges, hscan1, hllm1, hrev]] at hk
      have hmem := applyLoop_failure_mem env projectRoot st.changesToApply 0 k idx ch m hk
        (by rw [Nat.zero_add]; exact har) hsome
      exact List.mem_append.2 (Or.inl (List.mem_append.2 (Or.inr hmem)))

/-- Environment of an auto-confirmed, Git-skipped run with two `add` changes
whose first apply call fails and second succeeds. -/
def envTwoAddsFirstFails : GenerateEnv where
  isGitRepo := false
  currentBranch := none
  proceedGit := true
  branchNameInput := ""
  createBranchResult := .ok ()
  scanResult := .ok []
  llmResult := .ok
    { changes :=
        [{ filePath := "a.ts", action := "add", newContent := some "x", reason := none },
         { filePath := "b.ts", action := "add", newContent := some "y", reason := none }]
      summary := "two adds"
      thoughtProcess := none }
  decisions := fun _ => .yes
  applyResults := fun k => if k = 0 then .error "boom" else .ok ()
  checkoutResult := .ok ()
  stageResult := .ok ()

/-- C8 witness: in the concrete run whose first apply fails, both confirmed
changes are still dispatched in order and the failure is reported with its
path and message. -/
theorem c8_witness :
    (runGenerate envTwoAddsFirstFails "p" "/r" ["."] ⟨true, true, none⟩).1.filter
        isApplyCallEvt =
      (runConfirmedChanges envTwoAddsFirstFails true).map
        (fun x => Event.applyCall x.1 x.2.filePath (applyFileChange "/r" x.2)) ∧
    Event.applyFailureReport "a.ts" "boom" ∈
      (runGenerate envTwoAddsFirstFails "p" "/r" ["."] ⟨true, true, none⟩).1 :=
  ⟨(c8_apply_phase_processes_all envTwoAddsFirstFails "p" "/r" ["."] ⟨true, true, none⟩
      rfl).1,
   (c8_apply_phase_processes_all envTwoAddsFirstFails "p" "/r" ["."] ⟨true, true, none⟩
      rfl).2 0 0
      { filePath := "a.ts", action := "add", newContent := some "x", reason := none }
      "boom" (by decide) rfl rfl⟩
